import Mathlib

/-!
Shallow embedding of the OTLP Arrow metrics builder
(pkg/otel/metrics/arrow/metrics.go) together with the collaborators it
calls (pre-encode optimizer, attribute/data-point accumulators, column
builders).  The builder state, the Append loop, Build and Release are
translated from the Go source; collaborators whose code lives outside
the metrics file are modelled from the design spec and carry a
doc comment saying so.

Machine integers are modelled as Nat with explicit reductions where the
Go code truncates: the row id counter is a uint16 (mod 65536) and the
metric-type column is a uint8 (mod 256).
-/

/-- Typed attribute value (modelled from the spec: attribute sets map
string keys to typed values; the concrete value kinds used here are
string, int and bool). -/
inductive AttrValue where
  | str (s : String)
  | intV (i : Int)
  | boolV (b : Bool)
deriving DecidableEq, Repr

/-- An ordered attribute set: key/value pairs. -/
abbrev Attrs := List (String × AttrValue)

/-- A resource: a set of attributes (spec section 3). -/
structure Resource where
  attributes : Attrs
deriving DecidableEq, Repr

/-- An instrumentation scope: name, version and attributes (spec section 3). -/
structure InstrumentationScope where
  name : String
  version : String
  attributes : Attrs
deriving DecidableEq, Repr

/-- A number data point (gauge and sum payload). The payload fields pass
through the accumulator verbatim. -/
structure NumberDataPoint where
  timeUnixNano : Nat
  value : Int
deriving DecidableEq, Repr

/-- A summary data point payload. -/
structure SummaryDataPoint where
  timeUnixNano : Nat
  count : Nat
deriving DecidableEq, Repr

/-- A histogram data point payload. -/
structure HistogramDataPoint where
  timeUnixNano : Nat
  count : Nat
deriving DecidableEq, Repr

/-- An exponential histogram data point payload. -/
structure EHistogramDataPoint where
  timeUnixNano : Nat
  scale : Int
deriving DecidableEq, Repr

/-- The discriminated union over metric kinds (pmetric.Metric data).
The unknown constructor carries the raw type discriminant of a future,
unhandled kind (forward compatibility, spec sections 3 and 7). -/
inductive MetricData where
  | gauge (dps : List NumberDataPoint)
  | sum (aggregationTemporality : Int) (isMonotonic : Bool) (dps : List NumberDataPoint)
  | histogram (aggregationTemporality : Int) (dps : List HistogramDataPoint)
  | exponentialHistogram (aggregationTemporality : Int) (dps : List EHistogramDataPoint)
  | summary (dps : List SummaryDataPoint)
  | empty
  | unknown (discriminant : Nat)
deriving DecidableEq, Repr

/-- The pmetric.MetricType discriminant of a metric: Empty=0, Gauge=1,
Sum=2, Histogram=3, ExponentialHistogram=4, Summary=5; an unknown kind
carries its own discriminant. -/
def MetricData.typeDiscriminant : MetricData → Nat
  | .empty => 0
  | .gauge _ => 1
  | .sum _ _ _ => 2
  | .histogram _ _ => 3
  | .exponentialHistogram _ _ => 4
  | .summary _ => 5
  | .unknown d => d

/-- True exactly on the unknown (unhandled) metric kind. -/
def MetricData.isUnknown : MetricData → Bool
  | .unknown _ => true
  | _ => false

/-- One metric: scalar fields plus its kind-specific data. -/
structure Metric where
  name : String
  description : String
  unit : String
  data : MetricData
deriving DecidableEq, Repr

/-- Scope-level grouping of the hierarchical input batch. -/
structure ScopeMetrics where
  scope : InstrumentationScope
  schemaUrl : String
  metrics : List Metric
deriving DecidableEq, Repr

/-- Resource-level grouping of the hierarchical input batch. -/
structure ResourceMetrics where
  resource : Resource
  schemaUrl : String
  scopeMetrics : List ScopeMetrics
deriving DecidableEq, Repr

/-- A hierarchical metrics batch (pmetric.Metrics). -/
abbrev Metrics := List ResourceMetrics

/-- One flattened metric row as produced by the optimizer: the metric
together with its resource/scope context and the grouping identifiers
the Append loop compares (Go fields ResourceMetricsID / ScopeMetricsID).
Modelled from the spec: the optimizer is not under src, and it tags each
row with a grouping identifier of its resource (resp. resource-scope
pair); the identifier is modelled as the grouped content itself, compared
for equality exactly as the source compares the identifier strings. -/
structure FlatMetric where
  resourceGroupID : Resource
  resource : Resource
  resourceSchemaUrl : String
  scopeGroupID : Resource × InstrumentationScope
  scope : InstrumentationScope
  scopeSchemaUrl : String
  metric : Metric
deriving DecidableEq, Repr

/-! ## Schema registry (MetricsSchema, metrics.go lines 31-44) -/

/-- Encoding hints carried in a schema field's metadata. -/
inductive SchemaHint where
  | optionalHint
  | dictionary8
  | deltaEncoding
deriving DecidableEq, Repr

/-- Primitive or nested column type of a schema field. -/
inductive ColumnType where
  | uint16Col
  | uint8Col
  | int32Col
  | stringCol
  | booleanCol
  | structCol
deriving DecidableEq, Repr

/-- One field of the Arrow schema. -/
structure SchemaField where
  name : String
  typ : ColumnType
  hints : List SchemaHint
deriving DecidableEq, Repr

/-- The Arrow schema for the OTLP Arrow metrics record, translated from
MetricsSchema (metrics.go lines 31-44); the constant field names are
modelled with their obvious values since the constants package is not
under src. -/
def MetricsSchema : List SchemaField :=
  [ { name := "id", typ := .uint16Col, hints := [.deltaEncoding] },
    { name := "resource", typ := .structCol, hints := [.optionalHint] },
    { name := "scope", typ := .structCol, hints := [.optionalHint] },
    { name := "schema_url", typ := .stringCol, hints := [.optionalHint, .dictionary8] },
    { name := "metric_type", typ := .uint8Col, hints := [] },
    { name := "name", typ := .stringCol, hints := [.dictionary8] },
    { name := "description", typ := .stringCol, hints := [.optionalHint, .dictionary8] },
    { name := "unit", typ := .stringCol, hints := [.optionalHint, .dictionary8] },
    { name := "aggregation_temporality", typ := .int32Col, hints := [.optionalHint, .dictionary8] },
    { name := "is_monotonic", typ := .booleanCol, hints := [.optionalHint] } ]

/-! ## Column builders and accumulators -/

/-- Modelled from the spec: StringBuilder.AppendNonEmpty appends null for
an absent (empty) string and the string itself otherwise (spec section
4.5: null for the schema-url/description/unit columns when absent). -/
def appendNonEmpty (s : String) : Option String :=
  if s = "" then none else some s

/-- Modelled from the spec: the attribute accumulator keeps an
append-only table of attribute sets; each append mints a fresh,
monotonically increasing id (spec section 4.3: when the grouping key
changes, a fresh id is minted). -/
structure AttrsAccumulator where
  nextID : Int
  rows : List (Int × Attrs)
deriving DecidableEq, Repr

/-- Modelled from the spec (section 4.3): appending an attribute set
records it under a fresh id and returns that id. -/
def AttrsAccumulator.append (a : AttrsAccumulator) (attrs : Attrs) : Int × AttrsAccumulator :=
  (a.nextID, { nextID := a.nextID + 1, rows := a.rows ++ [(a.nextID, attrs)] })

/-- Modelled from the spec: the correlated child tables owned by the
builder (RelatedData): resource/scope attribute accumulators and one
data-point table per kind, each data point keyed by the parent row id
(spec section 4.3: append_datapoint always appends, writing the parent
row id as foreign key). The release counter models how many times the
underlying memory has been released (double free must be impossible). -/
structure RelatedData where
  resAttrs : AttrsAccumulator
  scopeAttrs : AttrsAccumulator
  numberDPs : List (Nat × NumberDataPoint)
  summaryDPs : List (Nat × SummaryDataPoint)
  histogramDPs : List (Nat × HistogramDataPoint)
  ehistogramDPs : List (Nat × EHistogramDataPoint)
  releaseCount : Nat
deriving DecidableEq, Repr

/-- The empty related-data tables. -/
def emptyRelatedData : RelatedData :=
  { resAttrs := { nextID := 0, rows := [] },
    scopeAttrs := { nextID := 0, rows := [] },
    numberDPs := [], summaryDPs := [], histogramDPs := [], ehistogramDPs := [],
    releaseCount := 0 }

/-- The buffered contents of the per-column builders of the metrics
record, one entry per appended row, in the order of MetricsSchema:
id (uint16 values), resource struct (attrs id, schema url), scope struct
(attrs id, name, version), scope schema url, metric type (uint8 values),
name, description, unit, aggregation temporality, is monotonic. -/
structure Columns where
  idCol : List Nat
  resCol : List (Int × Option String)
  scopeCol : List (Int × Option String × Option String)
  schemaUrlCol : List (Option String)
  metricTypeCol : List Nat
  nameCol : List (Option String)
  descriptionCol : List (Option String)
  unitCol : List (Option String)
  aggregationTemporalityCol : List (Option Int)
  isMonotonicCol : List (Option Bool)
deriving DecidableEq, Repr

/-- Fresh, empty column builders. -/
def emptyColumns : Columns :=
  { idCol := [], resCol := [], scopeCol := [], schemaUrlCol := [],
    metricTypeCol := [], nameCol := [], descriptionCol := [], unitCol := [],
    aggregationTemporalityCol := [], isMonotonicCol := [] }

/-- An immutable column batch, as handed out by Build. -/
abbrev ArrowRecord := Columns

/-- The MetricsBuilder state (metrics.go lines 48-67): released flag,
the wrapped record builder's column buffers, and the related data.
The schemaOutOfDate flag models the underlying record builder's build
failure condition (modelled from the spec, section 7: BuildFailure,
materializing the column batch fails, e.g. after dictionary overflow);
underlyingReleaseCount models how often the underlying record builder
has been released. -/
structure MetricsBuilder where
  released : Bool
  cols : Columns
  schemaOutOfDate : Bool
  underlyingReleaseCount : Nat
  relatedData : RelatedData
deriving DecidableEq, Repr

/-- A fresh builder (NewMetricsBuilder, metrics.go lines 70-103). -/
def NewMetricsBuilder : MetricsBuilder :=
  { released := false, cols := emptyColumns, schemaOutOfDate := false,
    underlyingReleaseCount := 0, relatedData := emptyRelatedData }

/-- Errors surfaced by the builder: ErrBuilderAlreadyReleased and the
build-failure error of the underlying record builder. -/
inductive BuilderError where
  | builderAlreadyReleased
  | schemaNotUpToDate
deriving DecidableEq, Repr

/-! ## Pre-encode optimizer (modelled from the spec, section 4.4) -/

/-- Modelled from the spec: flattening of the hierarchical batch into
one row per metric, tagging each row with its resource and scope
grouping identifiers. -/
def flattenMetrics (m : Metrics) : List FlatMetric :=
  m.flatMap (fun rm =>
    rm.scopeMetrics.flatMap (fun sm =>
      sm.metrics.map (fun mt =>
        { resourceGroupID := rm.resource
          resource := rm.resource
          resourceSchemaUrl := rm.schemaUrl
          scopeGroupID := (rm.resource, sm.scope)
          scope := sm.scope
          scopeSchemaUrl := sm.schemaUrl
          metric := mt })))

/-- Whether two rows belong to the same resource/scope group. -/
def sameGroup (y x : FlatMetric) : Bool :=
  y.resourceGroupID == x.resourceGroupID && y.scopeGroupID == x.scopeGroupID

/-- Modelled from the spec (section 4.4): stable grouping of rows so
that rows sharing the same resource and scope are contiguous, preserving
the original relative order inside each group. The fuel argument (the
input length suffices) makes the recursion structural. -/
def groupRowsAux : Nat → List FlatMetric → List (List FlatMetric)
  | 0, _ => []
  | _ + 1, [] => []
  | fuel + 1, x :: xs =>
    (x :: xs.filter (fun y => sameGroup y x)) ::
      groupRowsAux fuel (xs.filter (fun y => !sameGroup y x))

/-- Stable contiguous grouping by resource/scope group. -/
def groupRows (l : List FlatMetric) : List (List FlatMetric) :=
  groupRowsAux l.length l

/-- Modelled from the spec: the configured sort key comparison, a
lexicographic character order written as an executable Bool function. -/
def charListLt : List Char → List Char → Bool
  | [], [] => false
  | [], _ :: _ => true
  | _ :: _, [] => false
  | a :: as, b :: bs =>
    if a.toNat < b.toNat then true
    else if b.toNat < a.toNat then false
    else charListLt as bs

/-- Lexicographic comparison of two metric names. -/
def nameLt (a b : String) : Bool := charListLt a.data b.data

/-- Stable insertion of a row into a name-sorted list: the new row goes
after every existing row whose name is not greater (ties preserve the
original relative order). -/
def insertByName (x : FlatMetric) : List FlatMetric → List FlatMetric
  | [] => [x]
  | y :: ys =>
    if nameLt x.metric.name y.metric.name then x :: y :: ys else y :: insertByName x ys

/-- Modelled from the spec (section 4.4): stable sort of one group by
the configured sort key (the metric name). -/
def sortByName : List FlatMetric → List FlatMetric
  | [] => []
  | x :: xs => insertByName x (sortByName xs)

/-- Modelled from the spec (section 4.4): the pre-encode optimizer
reorders (never mutates) the flattened batch so that rows sharing the
same resource and scope are contiguous and each group is stably sorted
by metric name. -/
def Optimize (m : Metrics) : List FlatMetric :=
  ((groupRows (flattenMetrics m)).map sortByName).flatten

/-! ## The Append loop (metrics.go lines 154-253) -/

/-- The per-call loop state of Append: the uint16 row id counter and the
last seen resource/scope grouping identifiers with their accumulator ids
(Go locals metricID, resMetricsID, resID, scopeMetricsID, scopeID;
the unset identifier sentinel is modelled as none). -/
structure AppendCtx where
  metricID : Nat
  resMetricsID : Option Resource
  resID : Int
  scopeMetricsID : Option (Resource × InstrumentationScope)
  scopeID : Int
deriving DecidableEq, Repr

/-- The initial loop state of one Append call. -/
def initCtx : AppendCtx :=
  { metricID := 0, resMetricsID := none, resID := 0, scopeMetricsID := none, scopeID := 0 }

/-- The resource boundary check of the Append loop (metrics.go lines
179-185): when the row's resource grouping identifier differs from the
previous one, the resource attribute set is pushed to the accumulator
and a fresh id is obtained; otherwise the current id is reused.
Returns (resID, resMetricsID, accumulator). -/
def mintRes (ctx : AppendCtx) (acc : AttrsAccumulator) (m : FlatMetric) :
    Int × Option Resource × AttrsAccumulator :=
  if ctx.resMetricsID ≠ some m.resourceGroupID then
    let r := acc.append m.resource.attributes
    (r.1, some m.resourceGroupID, r.2)
  else
    (ctx.resID, ctx.resMetricsID, acc)

/-- The scope boundary check of the Append loop (metrics.go lines
191-197), analogous to mintRes. -/
def mintScope (ctx : AppendCtx) (acc : AttrsAccumulator) (m : FlatMetric) :
    Int × Option (Resource × InstrumentationScope) × AttrsAccumulator :=
  if ctx.scopeMetricsID ≠ some m.scopeGroupID then
    let r := acc.append m.scope.attributes
    (r.1, some m.scopeGroupID, r.2)
  else
    (ctx.scopeID, ctx.scopeMetricsID, acc)

/-- The per-kind branch of the Append loop (metrics.go lines 210-250):
writes the aggregation-temporality and is-monotonic columns and
accumulates the kind-specific data points keyed by the row id. The
default branch for an unknown kind appends nothing (the source's empty
default case with its ToDo comment). -/
def appendKind (cols : Columns) (rd : RelatedData) (ID : Nat) : MetricData → Columns × RelatedData
  | .gauge dps =>
    ({ cols with aggregationTemporalityCol := cols.aggregationTemporalityCol ++ [none]
                 isMonotonicCol := cols.isMonotonicCol ++ [none] },
     { rd with numberDPs := rd.numberDPs ++ dps.map (fun p => (ID, p)) })
  | .sum t mono dps =>
    ({ cols with aggregationTemporalityCol := cols.aggregationTemporalityCol ++ [some t]
                 isMonotonicCol := cols.isMonotonicCol ++ [some mono] },
     { rd with numberDPs := rd.numberDPs ++ dps.map (fun p => (ID, p)) })
  | .summary dps =>
    ({ cols with aggregationTemporalityCol := cols.aggregationTemporalityCol ++ [none]
                 isMonotonicCol := cols.isMonotonicCol ++ [none] },
     { rd with summaryDPs := rd.summaryDPs ++ dps.map (fun p => (ID, p)) })
  | .histogram t dps =>
    ({ cols with aggregationTemporalityCol := cols.aggregationTemporalityCol ++ [some t]
                 isMonotonicCol := cols.isMonotonicCol ++ [none] },
     { rd with histogramDPs := rd.histogramDPs ++ dps.map (fun p => (ID, p)) })
  | .exponentialHistogram t dps =>
    ({ cols with aggregationTemporalityCol := cols.aggregationTemporalityCol ++ [some t]
                 isMonotonicCol := cols.isMonotonicCol ++ [none] },
     { rd with ehistogramDPs := rd.ehistogramDPs ++ dps.map (fun p => (ID, p)) })
  | .empty =>
    ({ cols with aggregationTemporalityCol := cols.aggregationTemporalityCol ++ [none]
                 isMonotonicCol := cols.isMonotonicCol ++ [none] },
     rd)
  | .unknown _ => (cols, rd)

/-- One iteration of the Append loop (metrics.go lines 172-251): append
the row id (and advance the uint16 counter), run the resource/scope
boundary checks, append the resource and scope struct entries, the scope
schema url, the metric type reduced to uint8, the name, description and
unit via AppendNonEmpty, then run the per-kind branch. -/
def appendRow (b : MetricsBuilder) (ctx : AppendCtx) (m : FlatMetric) :
    MetricsBuilder × AppendCtx :=
  let ID := ctx.metricID
  let res := mintRes ctx b.relatedData.resAttrs m
  let sco := mintScope ctx b.relatedData.scopeAttrs m
  let cols1 : Columns :=
    { b.cols with
      idCol := b.cols.idCol ++ [ID]
      resCol := b.cols.resCol ++ [(res.1, appendNonEmpty m.resourceSchemaUrl)]
      scopeCol := b.cols.scopeCol ++
        [(sco.1, appendNonEmpty m.scope.name, appendNonEmpty m.scope.version)]
      schemaUrlCol := b.cols.schemaUrlCol ++ [appendNonEmpty m.scopeSchemaUrl]
      metricTypeCol := b.cols.metricTypeCol ++ [m.metric.data.typeDiscriminant % 256]
      nameCol := b.cols.nameCol ++ [appendNonEmpty m.metric.name]
      descriptionCol := b.cols.descriptionCol ++ [appendNonEmpty m.metric.description]
      unitCol := b.cols.unitCol ++ [appendNonEmpty m.metric.unit] }
  let rd1 : RelatedData := { b.relatedData with resAttrs := res.2.2, scopeAttrs := sco.2.2 }
  let kr := appendKind cols1 rd1 ID m.metric.data
  ({ b with cols := kr.1, relatedData := kr.2 },
   { metricID := (ctx.metricID + 1) % 65536
     resMetricsID := res.2.1
     resID := res.1
     scopeMetricsID := sco.2.1
     scopeID := sco.1 })

/-- The whole Append loop over the optimized rows. -/
def appendLoop (b : MetricsBuilder) (ctx : AppendCtx) : List FlatMetric → MetricsBuilder × AppendCtx
  | [] => (b, ctx)
  | m :: ms =>
    let s := appendRow b ctx m
    appendLoop s.1 s.2 ms

/-- MetricsBuilder.Append (metrics.go lines 154-253): reject if
released, otherwise optimize the batch and run the loop. Returns the
new builder state and the error, mirroring the Go receiver mutation
plus error return. -/
def MetricsBuilder.Append (b : MetricsBuilder) (metrics : Metrics) :
    MetricsBuilder × Option BuilderError :=
  if b.released then
    (b, some .builderAlreadyReleased)
  else
    ((appendLoop b initCtx (Optimize metrics)).1, none)

/-- MetricsBuilder.init (metrics.go lines 105-123): re-create the
per-column builders from the record builder, leaving them empty. -/
def MetricsBuilder.init (b : MetricsBuilder) : MetricsBuilder :=
  { b with cols := emptyColumns }

/-- MetricsBuilder.Build (metrics.go lines 137-151): reject if released;
otherwise materialize the record. The underlying NewRecord is modelled
from the spec (section 7): it fails when the schema is out of date
(dictionary overflow), in which case the schema is brought up to date,
the buffered rows are lost and init re-creates the column builders; on
success it hands out the buffered columns and implicitly resets the
builders (spec section 4.2). -/
def MetricsBuilder.Build (b : MetricsBuilder) :
    Option ArrowRecord × MetricsBuilder × Option BuilderError :=
  if b.released then
    (none, b, some .builderAlreadyReleased)
  else if b.schemaOutOfDate then
    (none, MetricsBuilder.init { b with schemaOutOfDate := false }, some .schemaNotUpToDate)
  else
    (some b.cols, { b with cols := emptyColumns }, none)

/-- MetricsBuilder.Release (metrics.go lines 256-263): guarded by the
released flag, release the underlying record builder and the related
data exactly once. -/
def MetricsBuilder.Release (b : MetricsBuilder) : MetricsBuilder :=
  if !b.released then
    { b with released := true
             underlyingReleaseCount := b.underlyingReleaseCount + 1
             relatedData := { b.relatedData with
                              releaseCount := b.relatedData.releaseCount + 1 } }
  else
    b

/-! ## Decoder (modelled from the spec) -/

/-- The semantic content of one flattened metric row: everything the
encoding must preserve (spec section 8, lossless round-trip up to row
order). Grouping identifiers are optimizer bookkeeping, not content. -/
structure SemMetricRow where
  resourceAttrs : Attrs
  resourceSchemaUrl : String
  scopeAttrs : Attrs
  scopeName : String
  scopeVersion : String
  scopeSchemaUrl : String
  name : String
  description : String
  unit : String
  data : MetricData
deriving DecidableEq, Repr

/-- The semantic content of a flattened row. -/
def semOfFlat (m : FlatMetric) : SemMetricRow :=
  { resourceAttrs := m.resource.attributes
    resourceSchemaUrl := m.resourceSchemaUrl
    scopeAttrs := m.scope.attributes
    scopeName := m.scope.name
    scopeVersion := m.scope.version
    scopeSchemaUrl := m.scopeSchemaUrl
    name := m.metric.name
    description := m.metric.description
    unit := m.metric.unit
    data := m.metric.data }

/-- Attribute lookup by accumulator id in a correlated attribute table. -/
def lookupAttrs (acc : AttrsAccumulator) (id : Int) : Attrs :=
  (acc.rows.lookup id).getD []

/-- Modelled from the spec: decoding of one row of the column batch
together with its correlated child tables — resolve the resource/scope
foreign keys in the attribute tables, null strings back to empty
strings, dispatch on the metric-type column and collect the data points
whose foreign key equals this row's id. -/
def decodeRow (cols : Columns) (rd : RelatedData) (i : Nat) : SemMetricRow :=
  let id := cols.idCol.getD i 0
  let res := cols.resCol.getD i (0, none)
  let sco := cols.scopeCol.getD i (0, none, none)
  let mt := cols.metricTypeCol.getD i 0
  let aggT := (cols.aggregationTemporalityCol.getD i none).getD 0
  let mono := (cols.isMonotonicCol.getD i none).getD false
  let data : MetricData :=
    if mt = 0 then .empty
    else if mt = 1 then
      .gauge ((rd.numberDPs.filter (fun p => p.1 == id)).map (fun p => p.2))
    else if mt = 2 then
      .sum aggT mono ((rd.numberDPs.filter (fun p => p.1 == id)).map (fun p => p.2))
    else if mt = 3 then
      .histogram aggT ((rd.histogramDPs.filter (fun p => p.1 == id)).map (fun p => p.2))
    else if mt = 4 then
      .exponentialHistogram aggT ((rd.ehistogramDPs.filter (fun p => p.1 == id)).map (fun p => p.2))
    else if mt = 5 then
      .summary ((rd.summaryDPs.filter (fun p => p.1 == id)).map (fun p => p.2))
    else .unknown mt
  { resourceAttrs := lookupAttrs rd.resAttrs res.1
    resourceSchemaUrl := res.2.getD ""
    scopeAttrs := lookupAttrs rd.scopeAttrs sco.1
    scopeName := sco.2.1.getD ""
    scopeVersion := sco.2.2.getD ""
    scopeSchemaUrl := (cols.schemaUrlCol.getD i none).getD ""
    name := (cols.nameCol.getD i none).getD ""
    description := (cols.descriptionCol.getD i none).getD ""
    unit := (cols.unitCol.getD i none).getD ""
    data := data }

/-- Modelled from the spec: decoding of the whole column batch, one
semantic row per entry of the primary id column. -/
def decodeRecord (cols : Columns) (rd : RelatedData) : List SemMetricRow :=
  (List.range cols.idCol.length).map (decodeRow cols rd)

/-! ## Projection lemmas for the loop body -/

/-- The aggregation-temporality entry the per-kind branch writes for a
handled kind: a real value for sum, histogram and exponential histogram,
null for gauge, summary and empty. -/
def aggOf : MetricData → Option Int
  | .sum t _ _ => some t
  | .histogram t _ => some t
  | .exponentialHistogram t _ => some t
  | _ => none

/-- The is-monotonic entry the per-kind branch writes for a handled
kind: the monotonic flag for sum, null for every other handled kind. -/
def monoOf : MetricData → Option Bool
  | .sum _ mono _ => some mono
  | _ => none

/-- The number data points a metric contributes (gauge and sum). -/
def numberDPsOf : MetricData → List NumberDataPoint
  | .gauge dps => dps
  | .sum _ _ dps => dps
  | _ => []

/-- The summary data points a metric contributes. -/
def summaryDPsOf : MetricData → List SummaryDataPoint
  | .summary dps => dps
  | _ => []

/-- The histogram data points a metric contributes. -/
def histDPsOf : MetricData → List HistogramDataPoint
  | .histogram _ dps => dps
  | _ => []

/-- The exponential histogram data points a metric contributes. -/
def ehistDPsOf : MetricData → List EHistogramDataPoint
  | .exponentialHistogram _ dps => dps
  | _ => []

lemma appendKind_idCol (cols : Columns) (rd : RelatedData) (ID : Nat) (d : MetricData) :
    (appendKind cols rd ID d).1.idCol = cols.idCol := by
  cases d <;> rfl

lemma appendKind_resCol (cols : Columns) (rd : RelatedData) (ID : Nat) (d : MetricData) :
    (appendKind cols rd ID d).1.resCol = cols.resCol := by
  cases d <;> rfl

lemma appendKind_scopeCol (cols : Columns) (rd : RelatedData) (ID : Nat) (d : MetricData) :
    (appendKind cols rd ID d).1.scopeCol = cols.scopeCol := by
  cases d <;> rfl

lemma appendKind_schemaUrlCol (cols : Columns) (rd : RelatedData) (ID : Nat) (d : MetricData) :
    (appendKind cols rd ID d).1.schemaUrlCol = cols.schemaUrlCol := by
  cases d <;> rfl

lemma appendKind_metricTypeCol (cols : Columns) (rd : RelatedData) (ID : Nat) (d : MetricData) :
    (appendKind cols rd ID d).1.metricTypeCol = cols.metricTypeCol := by
  cases d <;> rfl

lemma appendKind_nameCol (cols : Columns) (rd : RelatedData) (ID : Nat) (d : MetricData) :
    (appendKind cols rd ID d).1.nameCol = cols.nameCol := by
  cases d <;> rfl

lemma appendKind_descriptionCol (cols : Columns) (rd : RelatedData) (ID : Nat) (d : MetricData) :
    (appendKind cols rd ID d).1.descriptionCol = cols.descriptionCol := by
  cases d <;> rfl

lemma appendKind_unitCol (cols : Columns) (rd : RelatedData) (ID : Nat) (d : MetricData) :
    (appendKind cols rd ID d).1.unitCol = cols.unitCol := by
  cases d <;> rfl

lemma appendKind_agg (cols : Columns) (rd : RelatedData) (ID : Nat) (d : MetricData)
    (h : d.isUnknown = false) :
    (appendKind cols rd ID d).1.aggregationTemporalityCol =
      cols.aggregationTemporalityCol ++ [aggOf d] := by
  cases d <;> simp_all [appendKind, aggOf, MetricData.isUnknown]

lemma appendKind_mono (cols : Columns) (rd : RelatedData) (ID : Nat) (d : MetricData)
    (h : d.isUnknown = false) :
    (appendKind cols rd ID d).1.isMonotonicCol = cols.isMonotonicCol ++ [monoOf d] := by
  cases d <;> simp_all [appendKind, monoOf, MetricData.isUnknown]

lemma appendKind_resAttrs (cols : Columns) (rd : RelatedData) (ID : Nat) (d : MetricData) :
    (appendKind cols rd ID d).2.resAttrs = rd.resAttrs := by
  cases d <;> rfl

lemma appendKind_scopeAttrs (cols : Columns) (rd : RelatedData) (ID : Nat) (d : MetricData) :
    (appendKind cols rd ID d).2.scopeAttrs = rd.scopeAttrs := by
  cases d <;> rfl

lemma appendKind_releaseCount (cols : Columns) (rd : RelatedData) (ID : Nat) (d : MetricData) :
    (appendKind cols rd ID d).2.releaseCount = rd.releaseCount := by
  cases d <;> rfl

lemma appendKind_numberDPs (cols : Columns) (rd : RelatedData) (ID : Nat) (d : MetricData) :
    (appendKind cols rd ID d).2.numberDPs =
      rd.numberDPs ++ (numberDPsOf d).map (fun p => (ID, p)) := by
  cases d <;> simp [appendKind, numberDPsOf]

lemma appendKind_summaryDPs (cols : Columns) (rd : RelatedData) (ID : Nat) (d : MetricData) :
    (appendKind cols rd ID d).2.summaryDPs =
      rd.summaryDPs ++ (summaryDPsOf d).map (fun p => (ID, p)) := by
  cases d <;> simp [appendKind, summaryDPsOf]

lemma appendKind_histogramDPs (cols : Columns) (rd : RelatedData) (ID : Nat) (d : MetricData) :
    (appendKind cols rd ID d).2.histogramDPs =
      rd.histogramDPs ++ (histDPsOf d).map (fun p => (ID, p)) := by
  cases d <;> simp [appendKind, histDPsOf]

lemma appendKind_ehistogramDPs (cols : Columns) (rd : RelatedData) (ID : Nat) (d : MetricData) :
    (appendKind cols rd ID d).2.ehistogramDPs =
      rd.ehistogramDPs ++ (ehistDPsOf d).map (fun p => (ID, p)) := by
  cases d <;> simp [appendKind, ehistDPsOf]

lemma appendRow_idCol (b : MetricsBuilder) (ctx : AppendCtx) (m : FlatMetric) :
    (appendRow b ctx m).1.cols.idCol = b.cols.idCol ++ [ctx.metricID] := by
  simp [appendRow, appendKind_idCol]

lemma appendRow_resCol (b : MetricsBuilder) (ctx : AppendCtx) (m : FlatMetric) :
    (appendRow b ctx m).1.cols.resCol =
      b.cols.resCol ++
        [((mintRes ctx b.relatedData.resAttrs m).1, appendNonEmpty m.resourceSchemaUrl)] := by
  simp [appendRow, appendKind_resCol]

lemma appendRow_scopeCol (b : MetricsBuilder) (ctx : AppendCtx) (m : FlatMetric) :
    (appendRow b ctx m).1.cols.scopeCol =
      b.cols.scopeCol ++
        [((mintScope ctx b.relatedData.scopeAttrs m).1,
          appendNonEmpty m.scope.name, appendNonEmpty m.scope.version)] := by
  simp [appendRow, appendKind_scopeCol]

lemma appendRow_schemaUrlCol (b : MetricsBuilder) (ctx : AppendCtx) (m : FlatMetric) :
    (appendRow b ctx m).1.cols.schemaUrlCol =
      b.cols.schemaUrlCol ++ [appendNonEmpty m.scopeSchemaUrl] := by
  simp [appendRow, appendKind_schemaUrlCol]

lemma appendRow_metricTypeCol (b : MetricsBuilder) (ctx : AppendCtx) (m : FlatMetric) :
    (appendRow b ctx m).1.cols.metricTypeCol =
      b.cols.metricTypeCol ++ [m.metric.data.typeDiscriminant % 256] := by
  simp [appendRow, appendKind_metricTypeCol]

lemma appendRow_nameCol (b : MetricsBuilder) (ctx : AppendCtx) (m : FlatMetric) :
    (appendRow b ctx m).1.cols.nameCol = b.cols.nameCol ++ [appendNonEmpty m.metric.name] := by
  simp [appendRow, appendKind_nameCol]

lemma appendRow_descriptionCol (b : MetricsBuilder) (ctx : AppendCtx) (m : FlatMetric) :
    (appendRow b ctx m).1.cols.descriptionCol =
      b.cols.descriptionCol ++ [appendNonEmpty m.metric.description] := by
  simp [appendRow, appendKind_descriptionCol]

lemma appendRow_unitCol (b : MetricsBuilder) (ctx : AppendCtx) (m : FlatMetric) :
    (appendRow b ctx m).1.cols.unitCol = b.cols.unitCol ++ [appendNonEmpty m.metric.unit] := by
  simp [appendRow, appendKind_unitCol]

lemma appendRow_agg (b : MetricsBuilder) (ctx : AppendCtx) (m : FlatMetric)
    (h : m.metric.data.isUnknown = false) :
    (appendRow b ctx m).1.cols.aggregationTemporalityCol =
      b.cols.aggregationTemporalityCol ++ [aggOf m.metric.data] := by
  simp [appendRow, appendKind_agg _ _ _ _ h]

lemma appendRow_mono (b : MetricsBuilder) (ctx : AppendCtx) (m : FlatMetric)
    (h : m.metric.data.isUnknown = false) :
    (appendRow b ctx m).1.cols.isMonotonicCol =
      b.cols.isMonotonicCol ++ [monoOf m.metric.data] := by
  simp [appendRow, appendKind_mono _ _ _ _ h]

lemma appendRow_resAttrs (b : MetricsBuilder) (ctx : AppendCtx) (m : FlatMetric) :
    (appendRow b ctx m).1.relatedData.resAttrs =
      (mintRes ctx b.relatedData.resAttrs m).2.2 := by
  simp [appendRow, appendKind_resAttrs]

lemma appendRow_scopeAttrs (b : MetricsBuilder) (ctx : AppendCtx) (m : FlatMetric) :
    (appendRow b ctx m).1.relatedData.scopeAttrs =
      (mintScope ctx b.relatedData.scopeAttrs m).2.2 := by
  simp [appendRow, appendKind_scopeAttrs]

lemma appendRow_numberDPs (b : MetricsBuilder) (ctx : AppendCtx) (m : FlatMetric) :
    (appendRow b ctx m).1.relatedData.numberDPs =
      b.relatedData.numberDPs ++ (numberDPsOf m.metric.data).map (fun p => (ctx.metricID, p)) := by
  simp [appendRow, appendKind_numberDPs]

lemma appendRow_summaryDPs (b : MetricsBuilder) (ctx : AppendCtx) (m : FlatMetric) :
    (appendRow b ctx m).1.relatedData.summaryDPs =
      b.relatedData.summaryDPs ++ (summaryDPsOf m.metric.data).map (fun p => (ctx.metricID, p)) := by
  simp [appendRow, appendKind_summaryDPs]

lemma appendRow_histogramDPs (b : MetricsBuilder) (ctx : AppendCtx) (m : FlatMetric) :
    (appendRow b ctx m).1.relatedData.histogramDPs =
      b.relatedData.histogramDPs ++ (histDPsOf m.metric.data).map (fun p => (ctx.metricID, p)) := by
  simp [appendRow, appendKind_histogramDPs]

lemma appendRow_ehistogramDPs (b : MetricsBuilder) (ctx : AppendCtx) (m : FlatMetric) :
    (appendRow b ctx m).1.relatedData.ehistogramDPs =
      b.relatedData.ehistogramDPs ++ (ehistDPsOf m.metric.data).map (fun p => (ctx.metricID, p)) := by
  simp [appendRow, appendKind_ehistogramDPs]

lemma appendRow_releaseCount (b : MetricsBuilder) (ctx : AppendCtx) (m : FlatMetric) :
    (appendRow b ctx m).1.relatedData.releaseCount = b.relatedData.releaseCount := by
  simp [appendRow, appendKind_releaseCount]

lemma appendRow_released (b : MetricsBuilder) (ctx : AppendCtx) (m : FlatMetric) :
    (appendRow b ctx m).1.released = b.released := rfl

lemma appendRow_schemaOutOfDate (b : MetricsBuilder) (ctx : AppendCtx) (m : FlatMetric) :
    (appendRow b ctx m).1.schemaOutOfDate = b.schemaOutOfDate := rfl

lemma appendRow_underlyingReleaseCount (b : MetricsBuilder) (ctx : AppendCtx) (m : FlatMetric) :
    (appendRow b ctx m).1.underlyingReleaseCount = b.underlyingReleaseCount := rfl

lemma appendRow_ctx (b : MetricsBuilder) (ctx : AppendCtx) (m : FlatMetric) :
    (appendRow b ctx m).2 =
      { metricID := (ctx.metricID + 1) % 65536
        resMetricsID := (mintRes ctx b.relatedData.resAttrs m).2.1
        resID := (mintRes ctx b.relatedData.resAttrs m).1
        scopeMetricsID := (mintScope ctx b.relatedData.scopeAttrs m).2.1
        scopeID := (mintScope ctx b.relatedData.scopeAttrs m).1 } := rfl

lemma mintRes_pos (ctx : AppendCtx) (acc : AttrsAccumulator) (m : FlatMetric)
    (h : ctx.resMetricsID ≠ some m.resourceGroupID) :
    mintRes ctx acc m =
      (acc.nextID, some m.resourceGroupID,
       { nextID := acc.nextID + 1, rows := acc.rows ++ [(acc.nextID, m.resource.attributes)] }) := by
  simp [mintRes, h, AttrsAccumulator.append]

lemma mintRes_neg (ctx : AppendCtx) (acc : AttrsAccumulator) (m : FlatMetric)
    (h : ctx.resMetricsID = some m.resourceGroupID) :
    mintRes ctx acc m = (ctx.resID, ctx.resMetricsID, acc) := by
  simp [mintRes, h]

lemma mintScope_pos (ctx : AppendCtx) (acc : AttrsAccumulator) (m : FlatMetric)
    (h : ctx.scopeMetricsID ≠ some m.scopeGroupID) :
    mintScope ctx acc m =
      (acc.nextID, some m.scopeGroupID,
       { nextID := acc.nextID + 1, rows := acc.rows ++ [(acc.nextID, m.scope.attributes)] }) := by
  simp [mintScope, h, AttrsAccumulator.append]

lemma mintScope_neg (ctx : AppendCtx) (acc : AttrsAccumulator) (m : FlatMetric)
    (h : ctx.scopeMetricsID = some m.scopeGroupID) :
    mintScope ctx acc m = (ctx.scopeID, ctx.scopeMetricsID, acc) := by
  simp [mintScope, h]

/-! ## Loop-level lemmas -/

lemma appendLoop_released (rows : List FlatMetric) (b : MetricsBuilder) (ctx : AppendCtx) :
    (appendLoop b ctx rows).1.released = b.released := by
  induction rows generalizing b ctx with
  | nil => rfl
  | cons m ms ih => simp [appendLoop, ih, appendRow_released]

lemma appendLoop_schemaOutOfDate (rows : List FlatMetric) (b : MetricsBuilder) (ctx : AppendCtx) :
    (appendLoop b ctx rows).1.schemaOutOfDate = b.schemaOutOfDate := by
  induction rows generalizing b ctx with
  | nil => rfl
  | cons m ms ih => simp [appendLoop, ih, appendRow_schemaOutOfDate]

lemma appendLoop_idCol (rows : List FlatMetric) (b : MetricsBuilder) (ctx : AppendCtx)
    (hc : ctx.metricID < 65536) :
    (appendLoop b ctx rows).1.cols.idCol =
      b.cols.idCol ++ (List.range rows.length).map (fun i => (ctx.metricID + i) % 65536) := by
  induction rows generalizing b ctx with
  | nil => simp [appendLoop]
  | cons m ms ih =>
    rw [appendLoop]
    rw [ih _ _ (by rw [appendRow_ctx]; exact Nat.mod_lt _ (by norm_num))]
    rw [appendRow_idCol, appendRow_ctx]
    simp only [List.length_cons, List.range_succ_eq_map, List.map_cons, List.map_map]
    rw [List.append_assoc]
    congr 1
    simp only [List.singleton_append, Nat.add_zero, Nat.mod_eq_of_lt hc]
    congr 1
    refine List.map_congr_left (fun i _ => ?_)
    simp [Function.comp, Nat.mod_add_mod, Nat.add_assoc, Nat.add_comm 1 i]

lemma appendLoop_metricTypeCol (rows : List FlatMetric) (b : MetricsBuilder) (ctx : AppendCtx) :
    (appendLoop b ctx rows).1.cols.metricTypeCol =
      b.cols.metricTypeCol ++ rows.map (fun m => m.metric.data.typeDiscriminant % 256) := by
  induction rows generalizing b ctx with
  | nil => simp [appendLoop]
  | cons m ms ih =>
    rw [appendLoop, ih, appendRow_metricTypeCol]
    simp

lemma Append_not_released (b : MetricsBuilder) (B : Metrics) (h : b.released = false) :
    b.Append B = ((appendLoop b initCtx (Optimize B)).1, none) := by
  rw [MetricsBuilder.Append, if_neg (by simp [h])]

lemma Append_state (b : MetricsBuilder) (B : Metrics) (h : b.released = false) :
    (b.Append B).1 = (appendLoop b initCtx (Optimize B)).1 := by
  rw [Append_not_released b B h]

/-! ## Claim C5: operations after release are rejected without mutation -/

/-- Claim C5: on a released builder, Append and Build fail immediately
with the AlreadyReleased error and return the state unchanged
(metrics.go lines 137-140 and 154-157). -/
theorem c5_after_release_rejected (b : MetricsBuilder) (ms : Metrics) (h : b.released = true) :
    b.Append ms = (b, some .builderAlreadyReleased) ∧
    b.Build = (none, b, some .builderAlreadyReleased) := by
  constructor <;> simp [MetricsBuilder.Append, MetricsBuilder.Build, h]

/-- Witness for claim C5 at a concrete released builder. -/
theorem c5_after_release_rejected_witness :
    NewMetricsBuilder.Release.released = true ∧
    NewMetricsBuilder.Release.Append [] = (NewMetricsBuilder.Release, some .builderAlreadyReleased) ∧
    NewMetricsBuilder.Release.Build = (none, NewMetricsBuilder.Release, some .builderAlreadyReleased) :=
  ⟨rfl, (c5_after_release_rejected NewMetricsBuilder.Release [] rfl).1,
    (c5_after_release_rejected NewMetricsBuilder.Release [] rfl).2⟩

/-! ## Claim C6: Release is idempotent and cannot double free -/

/-- Claim C6: Release composed with itself equals a single Release, and
one Release increments each underlying release counter at most once, so
a double call cannot double-free (metrics.go lines 256-263). -/
theorem c6_release_idempotent (b : MetricsBuilder) :
    b.Release.Release = b.Release ∧
    b.Release.underlyingReleaseCount ≤ b.underlyingReleaseCount + 1 ∧
    b.Release.relatedData.releaseCount ≤ b.relatedData.releaseCount + 1 := by
  cases hb : b.released <;>
    simp [MetricsBuilder.Release, hb]

/-! ## Claim C7: a failed Build reinitializes and stays usable -/

/-- Claim C7: when the underlying record materialization fails on a
non-released builder, Build returns no record with the failure error,
re-creates the column builders via init, does not release the builder,
leaves the related data intact, and the builder accepts a subsequent
Append (metrics.go lines 137-151). -/
theorem c7_build_failure_reinit (b : MetricsBuilder) (ms : Metrics)
    (h1 : b.released = false) (h2 : b.schemaOutOfDate = true) :
    b.Build.1 = none ∧
    b.Build.2.2 = some .schemaNotUpToDate ∧
    b.Build.2.1.released = false ∧
    b.Build.2.1.cols = emptyColumns ∧
    b.Build.2.1.relatedData = b.relatedData ∧
    (b.Build.2.1.Append ms).2 = none := by
  simp [MetricsBuilder.Build, MetricsBuilder.init, MetricsBuilder.Append, h1, h2]

/-- A builder whose underlying record builder is in the build-failure
condition. -/
def overflowBuilder : MetricsBuilder :=
  { NewMetricsBuilder with schemaOutOfDate := true }

/-- Witness for claim C7 at a concrete failing builder. -/
theorem c7_build_failure_reinit_witness :
    (overflowBuilder.released = false ∧ overflowBuilder.schemaOutOfDate = true) ∧
    (overflowBuilder.Build.1 = none ∧
     overflowBuilder.Build.2.2 = some .schemaNotUpToDate ∧
     overflowBuilder.Build.2.1.released = false ∧
     overflowBuilder.Build.2.1.cols = emptyColumns ∧
     overflowBuilder.Build.2.1.relatedData = overflowBuilder.relatedData ∧
     (overflowBuilder.Build.2.1.Append []).2 = none) :=
  ⟨⟨rfl, rfl⟩, c7_build_failure_reinit overflowBuilder [] rfl rfl⟩

/-! ## Claim C8: the per-kind branch column writes -/

/-- Claim C8: for every appended metric row of a handled kind, the
per-kind branch writes exactly one entry to each of the
aggregation-temporality and is-monotonic columns: gauge, summary and
empty write null to both; sum writes its temporality and its monotonic
flag; histogram and exponential histogram write their temporality and
null for monotonic (metrics.go lines 210-250; the tables aggOf and
monoOf spell out that case split). -/
theorem c8_per_kind_columns (b : MetricsBuilder) (ctx : AppendCtx) (m : FlatMetric)
    (h : m.metric.data.isUnknown = false) :
    (appendRow b ctx m).1.cols.aggregationTemporalityCol =
      b.cols.aggregationTemporalityCol ++ [aggOf m.metric.data] ∧
    (appendRow b ctx m).1.cols.isMonotonicCol =
      b.cols.isMonotonicCol ++ [monoOf m.metric.data] :=
  ⟨appendRow_agg b ctx m h, appendRow_mono b ctx m h⟩

/-- A concrete flattened row carrying a cumulative monotonic sum. -/
def flatSumRow : FlatMetric :=
  { resourceGroupID := { attributes := [] }
    resource := { attributes := [] }
    resourceSchemaUrl := ""
    scopeGroupID := ({ attributes := [] }, { name := "", version := "", attributes := [] })
    scope := { name := "", version := "", attributes := [] }
    scopeSchemaUrl := ""
    metric := { name := "s", description := "", unit := "", data := .sum 2 true [] } }

/-- Witness for claim C8 at a concrete sum row. -/
theorem c8_per_kind_columns_witness :
    flatSumRow.metric.data.isUnknown = false ∧
    ((appendRow NewMetricsBuilder initCtx flatSumRow).1.cols.aggregationTemporalityCol =
       NewMetricsBuilder.cols.aggregationTemporalityCol ++ [aggOf flatSumRow.metric.data] ∧
     (appendRow NewMetricsBuilder initCtx flatSumRow).1.cols.isMonotonicCol =
       NewMetricsBuilder.cols.isMonotonicCol ++ [monoOf flatSumRow.metric.data]) :=
  ⟨rfl, c8_per_kind_columns NewMetricsBuilder initCtx flatSumRow rfl⟩

/-! ## Claim C9: the metric-type column is the kind reduced mod 256 -/

/-- Claim C9: Append writes each metric's kind discriminant to the
metric-type column as an unsigned 8-bit value, i.e. reduced mod 256
(metrics.go line 205, uint8 conversion), and the stored value equals the
original discriminant exactly when that discriminant is below 256. -/
theorem c9_metric_type_mod256 (b : MetricsBuilder) (B : Metrics) (h : b.released = false) :
    (b.Append B).1.cols.metricTypeCol =
      b.cols.metricTypeCol ++ (Optimize B).map (fun m => m.metric.data.typeDiscriminant % 256) ∧
    ∀ m : FlatMetric,
      (m.metric.data.typeDiscriminant % 256 = m.metric.data.typeDiscriminant ↔
        m.metric.data.typeDiscriminant < 256) := by
  constructor
  · simp [MetricsBuilder.Append, h, appendLoop_metricTypeCol]
  · intro m
    constructor
    · intro he
      rw [← he]
      exact Nat.mod_lt _ (by norm_num)
    · exact Nat.mod_eq_of_lt

/-- A batch holding one metric of an unknown kind with discriminant 300,
a discriminant that does not survive the uint8 conversion. -/
def bigDiscriminantBatch : Metrics :=
  [ { resource := { attributes := [] }
      schemaUrl := ""
      scopeMetrics :=
        [ { scope := { name := "", version := "", attributes := [] }
            schemaUrl := ""
            metrics := [ { name := "m", description := "", unit := "", data := .unknown 300 } ] } ] } ]

/-- Witness for claim C9 on a concrete batch. -/
theorem c9_metric_type_mod256_witness :
    NewMetricsBuilder.released = false ∧
    ((NewMetricsBuilder.Append bigDiscriminantBatch).1.cols.metricTypeCol =
       NewMetricsBuilder.cols.metricTypeCol ++
         (Optimize bigDiscriminantBatch).map (fun m => m.metric.data.typeDiscriminant % 256) ∧
     ∀ m : FlatMetric,
       (m.metric.data.typeDiscriminant % 256 = m.metric.data.typeDiscriminant ↔
         m.metric.data.typeDiscriminant < 256)) :=
  ⟨rfl, c9_metric_type_mod256 NewMetricsBuilder bigDiscriminantBatch rfl⟩

/-! ## Claim C10: empty strings are appended as null -/

/-- Claim C10: for every appended row, the scope schema url, metric
name, description and unit columns receive null when the corresponding
input string is empty and the string itself otherwise (the
AppendNonEmpty calls of metrics.go lines 201-208), so an empty string
and an absent value are encoded identically; this includes the name
column although the schema does not mark it optional (its only hint is
dictionary encoding). -/
theorem c10_append_non_empty (b : MetricsBuilder) (ctx : AppendCtx) (m : FlatMetric) :
    (appendRow b ctx m).1.cols.schemaUrlCol =
      b.cols.schemaUrlCol ++ [if m.scopeSchemaUrl = "" then none else some m.scopeSchemaUrl] ∧
    (appendRow b ctx m).1.cols.nameCol =
      b.cols.nameCol ++ [if m.metric.name = "" then none else some m.metric.name] ∧
    (appendRow b ctx m).1.cols.descriptionCol =
      b.cols.descriptionCol ++
        [if m.metric.description = "" then none else some m.metric.description] ∧
    (appendRow b ctx m).1.cols.unitCol =
      b.cols.unitCol ++ [if m.metric.unit = "" then none else some m.metric.unit] ∧
    (MetricsSchema.find? (fun f => f.name == "name")).map SchemaField.hints =
      some [.dictionary8] := by
  refine ⟨?_, ?_, ?_, ?_, by decide⟩ <;>
    simp [appendRow_schemaUrlCol, appendRow_nameCol, appendRow_descriptionCol,
      appendRow_unitCol, appendNonEmpty]

/-! ## Claim C1: the default branch for unknown kinds -/

/-- A batch holding a single metric whose kind discriminant 6 is not one
of the handled kinds. -/
def unknownKindBatch : Metrics :=
  [ { resource := { attributes := [] }
      schemaUrl := ""
      scopeMetrics :=
        [ { scope := { name := "", version := "", attributes := [] }
            schemaUrl := ""
            metrics := [ { name := "m", description := "", unit := "", data := .unknown 6 } ] } ] } ]

/-- Claim C1, evaluated at the failing input: appending one metric of an
unhandled kind returns no error and contributes no data points, but the
default branch (metrics.go lines 248-250) appends nothing to the
aggregation-temporality and is-monotonic columns, so those columns end
up one entry short of the id column instead of holding the null
placeholders the claim requires. -/
theorem c1_unknown_kind_divergence :
    (NewMetricsBuilder.Append unknownKindBatch).2 = none ∧
    (NewMetricsBuilder.Append unknownKindBatch).1.cols.idCol = [0] ∧
    (NewMetricsBuilder.Append unknownKindBatch).1.cols.aggregationTemporalityCol = [] ∧
    (NewMetricsBuilder.Append unknownKindBatch).1.cols.isMonotonicCol = [] ∧
    (NewMetricsBuilder.Append unknownKindBatch).1.relatedData.numberDPs = [] ∧
    (NewMetricsBuilder.Append unknownKindBatch).1.relatedData.summaryDPs = [] ∧
    (NewMetricsBuilder.Append unknownKindBatch).1.relatedData.histogramDPs = [] ∧
    (NewMetricsBuilder.Append unknownKindBatch).1.relatedData.ehistogramDPs = [] := by
  decide

/-! ## Claim C3: resource/scope ids are minted only at group boundaries -/

/-- Claim C3: during Append, a fresh resource (resp. scope) id is minted
by the accumulator only when the row's grouping identifier differs from
the previous row's (metrics.go lines 178-201): starting a fresh Append,
two consecutive rows with identical resource and scope content share one
resource id and one scope id and exactly one id is minted per
accumulator, two consecutive rows with differing resource content get
two distinct resource ids, and the current id is written into the
resource/scope struct column on every row regardless of the boundary.
The hypotheses record that optimizer rows carry their grouped content as
grouping identifier. -/
theorem c3_group_boundary_ids (b : MetricsBuilder) (r1 r2 : FlatMetric)
    (w1 : r1.resourceGroupID = r1.resource) (w2 : r1.scopeGroupID = (r1.resource, r1.scope))
    (w3 : r2.resourceGroupID = r2.resource) (w4 : r2.scopeGroupID = (r2.resource, r2.scope)) :
    ∃ id1 id2 sid1 sid2,
      (appendLoop b initCtx [r1, r2]).1.cols.resCol.map Prod.fst =
        b.cols.resCol.map Prod.fst ++ [id1, id2] ∧
      (appendLoop b initCtx [r1, r2]).1.cols.scopeCol.map (fun e => e.1) =
        b.cols.scopeCol.map (fun e => e.1) ++ [sid1, sid2] ∧
      (r1.resource = r2.resource ∧ r1.scope = r2.scope →
        id1 = id2 ∧ sid1 = sid2 ∧
        (appendLoop b initCtx [r1, r2]).1.relatedData.resAttrs.nextID =
          b.relatedData.resAttrs.nextID + 1 ∧
        (appendLoop b initCtx [r1, r2]).1.relatedData.scopeAttrs.nextID =
          b.relatedData.scopeAttrs.nextID + 1) ∧
      (r1.resource ≠ r2.resource →
        id1 ≠ id2 ∧
        (appendLoop b initCtx [r1, r2]).1.relatedData.resAttrs.nextID =
          b.relatedData.resAttrs.nextID + 2) := by
  refine ⟨b.relatedData.resAttrs.nextID,
    if r1.resourceGroupID = r2.resourceGroupID then b.relatedData.resAttrs.nextID
      else b.relatedData.resAttrs.nextID + 1,
    b.relatedData.scopeAttrs.nextID,
    if r1.scopeGroupID = r2.scopeGroupID then b.relatedData.scopeAttrs.nextID
      else b.relatedData.scopeAttrs.nextID + 1,
    ?_, ?_, ?_, ?_⟩
  · by_cases hgr : r1.resourceGroupID = r2.resourceGroupID <;>
      simp [appendLoop, appendRow_resCol, appendRow_ctx, appendRow_resAttrs,
        appendRow_scopeAttrs, mintRes, mintScope, initCtx, AttrsAccumulator.append, hgr]
  · by_cases hgs : r1.scopeGroupID = r2.scopeGroupID <;>
      simp [appendLoop, appendRow_scopeCol, appendRow_ctx, appendRow_resAttrs,
        appendRow_scopeAttrs, mintRes, mintScope, initCtx, AttrsAccumulator.append, hgs]
  · rintro ⟨hr, hs⟩
    have hgr : r1.resourceGroupID = r2.resourceGroupID := by rw [w1, w3, hr]
    have hgs : r1.scopeGroupID = r2.scopeGroupID := by rw [w2, w4, hr, hs]
    refine ⟨by simp [hgr], by simp [hgs], ?_, ?_⟩ <;>
      simp [appendLoop, appendRow_resAttrs, appendRow_scopeAttrs, appendRow_ctx,
        mintRes, mintScope, initCtx, AttrsAccumulator.append, hgr, hgs]
  · intro hne
    have hgr : r1.resourceGroupID ≠ r2.resourceGroupID := by
      rw [w1, w3]; exact hne
    refine ⟨?_, ?_⟩
    · rw [if_neg hgr]
      omega
    · simp [appendLoop, appendRow_resAttrs, appendRow_ctx, mintRes, mintScope,
        initCtx, AttrsAccumulator.append, hgr]
      omega

/-- A concrete flattened gauge row used to witness claim C3. -/
def flatGaugeRow : FlatMetric :=
  { resourceGroupID := { attributes := [("env", .str "prod")] }
    resource := { attributes := [("env", .str "prod")] }
    resourceSchemaUrl := "r"
    scopeGroupID := ({ attributes := [("env", .str "prod")] },
                     { name := "lib", version := "1", attributes := [] })
    scope := { name := "lib", version := "1", attributes := [] }
    scopeSchemaUrl := ""
    metric := { name := "g", description := "", unit := "",
                data := .gauge [ { timeUnixNano := 1, value := 5 } ] } }

/-- Witness for claim C3 at two concrete rows with identical content. -/
theorem c3_group_boundary_ids_witness :
    ∃ id1 id2 sid1 sid2,
      (appendLoop NewMetricsBuilder initCtx [flatGaugeRow, flatGaugeRow]).1.cols.resCol.map Prod.fst =
        NewMetricsBuilder.cols.resCol.map Prod.fst ++ [id1, id2] ∧
      (appendLoop NewMetricsBuilder initCtx [flatGaugeRow, flatGaugeRow]).1.cols.scopeCol.map
          (fun e => e.1) =
        NewMetricsBuilder.cols.scopeCol.map (fun e => e.1) ++ [sid1, sid2] ∧
      (flatGaugeRow.resource = flatGaugeRow.resource ∧ flatGaugeRow.scope = flatGaugeRow.scope →
        id1 = id2 ∧ sid1 = sid2 ∧
        (appendLoop NewMetricsBuilder initCtx
            [flatGaugeRow, flatGaugeRow]).1.relatedData.resAttrs.nextID =
          NewMetricsBuilder.relatedData.resAttrs.nextID + 1 ∧
        (appendLoop NewMetricsBuilder initCtx
            [flatGaugeRow, flatGaugeRow]).1.relatedData.scopeAttrs.nextID =
          NewMetricsBuilder.relatedData.scopeAttrs.nextID + 1) ∧
      (flatGaugeRow.resource ≠ flatGaugeRow.resource →
        id1 ≠ id2 ∧
        (appendLoop NewMetricsBuilder initCtx
            [flatGaugeRow, flatGaugeRow]).1.relatedData.resAttrs.nextID =
          NewMetricsBuilder.relatedData.resAttrs.nextID + 2) :=
  c3_group_boundary_ids NewMetricsBuilder flatGaugeRow flatGaugeRow rfl rfl rfl rfl

/-! ## Claim C2: the written row ids -/

lemma groupRowsAux_nil (fuel : Nat) : groupRowsAux fuel [] = [] := by
  cases fuel <;> rfl

lemma sameGroup_self (x : FlatMetric) : sameGroup x x = true := by
  simp [sameGroup]

lemma groupRows_replicate (x : FlatMetric) (n : Nat) (hn : 0 < n) :
    groupRows (List.replicate n x) = [List.replicate n x] := by
  cases n with
  | zero => omega
  | succ k =>
    rw [groupRows]
    simp only [List.length_replicate, List.replicate_succ, groupRowsAux]
    rw [List.filter_replicate, List.filter_replicate]
    simp [sameGroup_self, groupRowsAux_nil]

lemma charListLt_irrefl (l : List Char) : charListLt l l = false := by
  induction l with
  | nil => rfl
  | cons a as ih => simp [charListLt, ih]

lemma insertByName_replicate (x : FlatMetric) (k : Nat) :
    insertByName x (List.replicate k x) = List.replicate (k + 1) x := by
  induction k with
  | zero => rfl
  | succ k ih =>
    rw [List.replicate_succ, insertByName, nameLt, charListLt_irrefl]
    rw [if_neg (by simp), ih]
    rfl

lemma sortByName_replicate (x : FlatMetric) (k : Nat) :
    sortByName (List.replicate k x) = List.replicate k x := by
  induction k with
  | zero => rfl
  | succ k ih =>
    rw [List.replicate_succ, sortByName, ih, insertByName_replicate]
    rfl

/-- A single metric batch shape with the given metric repeated n times
under one resource and one scope. -/
def replicatedBatch (n : Nat) : Metrics :=
  [ { resource := { attributes := [] }
      schemaUrl := ""
      scopeMetrics :=
        [ { scope := { name := "", version := "", attributes := [] }
            schemaUrl := ""
            metrics :=
              List.replicate n { name := "m", description := "", unit := "", data := .empty } } ] } ]

/-- The flattened row of replicatedBatch. -/
def replicatedFlatRow : FlatMetric :=
  { resourceGroupID := { attributes := [] }
    resource := { attributes := [] }
    resourceSchemaUrl := ""
    scopeGroupID := ({ attributes := [] }, { name := "", version := "", attributes := [] })
    scope := { name := "", version := "", attributes := [] }
    scopeSchemaUrl := ""
    metric := { name := "m", description := "", unit := "", data := .empty } }

lemma Optimize_replicatedBatch (n : Nat) (hn : 0 < n) :
    Optimize (replicatedBatch n) = List.replicate n replicatedFlatRow := by
  have hflat : flattenMetrics (replicatedBatch n) = List.replicate n replicatedFlatRow := by
    simp [flattenMetrics, replicatedBatch, List.map_replicate, replicatedFlatRow]
  rw [Optimize, hflat, groupRows_replicate _ _ hn]
  simp [sortByName_replicate]

/-- Claim C2 as amended: the ids one Append call writes to the id column
are the row indices of the optimized batch reduced mod 65536 (the Go
counter is a uint16, metrics.go line 165), hence exactly 0, 1, 2, ...
whenever the optimized batch has at most 65536 rows. -/
theorem c2_row_ids_amended (b : MetricsBuilder) (B : Metrics) (h : b.released = false) :
    (b.Append B).1.cols.idCol =
      b.cols.idCol ++ (List.range (Optimize B).length).map (fun i => i % 65536) ∧
    ((Optimize B).length ≤ 65536 →
      (b.Append B).1.cols.idCol = b.cols.idCol ++ List.range (Optimize B).length) := by
  have h0 : initCtx.metricID < 65536 := by norm_num [initCtx]
  have hmain : (b.Append B).1.cols.idCol =
      b.cols.idCol ++ (List.range (Optimize B).length).map (fun i => i % 65536) := by
    rw [MetricsBuilder.Append, if_neg (by simp [h])]
    rw [appendLoop_idCol _ _ _ h0]
    simp [initCtx]
  refine ⟨hmain, fun hlen => ?_⟩
  rw [hmain]
  congr 1
  have he : ∀ i ∈ List.range (Optimize B).length, i % 65536 = i := fun i hi =>
    Nat.mod_eq_of_lt (lt_of_lt_of_le (List.mem_range.mp hi) hlen)
  simpa using List.map_congr_left he

/-- Witness for claim C2 as amended, at a concrete two-row batch. -/
theorem c2_row_ids_amended_witness :
    NewMetricsBuilder.released = false ∧
    ((NewMetricsBuilder.Append (replicatedBatch 2)).1.cols.idCol =
       NewMetricsBuilder.cols.idCol ++
         (List.range (Optimize (replicatedBatch 2)).length).map (fun i => i % 65536) ∧
     ((Optimize (replicatedBatch 2)).length ≤ 65536 →
       (NewMetricsBuilder.Append (replicatedBatch 2)).1.cols.idCol =
         NewMetricsBuilder.cols.idCol ++ List.range (Optimize (replicatedBatch 2)).length)) :=
  ⟨rfl, c2_row_ids_amended NewMetricsBuilder (replicatedBatch 2) rfl⟩

/-- Counterexample for claim C2 as stated: on a batch of 65537 metrics
the uint16 row id counter wraps, so the id column is not the sequence
0, 1, 2, ... — the entry at index 65535 is 65535 and the next entry is
0, which also breaks strict increase and the maximum delta of 1. -/
theorem c2_row_ids_counterexample :
    (NewMetricsBuilder.Append (replicatedBatch 65537)).1.cols.idCol.getD 65535 0 = 65535 ∧
    (NewMetricsBuilder.Append (replicatedBatch 65537)).1.cols.idCol.getD 65536 0 = 0 ∧
    ¬ (NewMetricsBuilder.Append (replicatedBatch 65537)).1.cols.idCol =
        List.range (NewMetricsBuilder.Append (replicatedBatch 65537)).1.cols.idCol.length := by
  have h0 : initCtx.metricID < 65536 := by norm_num [initCtx]
  have elink : (NewMetricsBuilder.Append (replicatedBatch 65537)).1.cols.idCol =
      (appendLoop NewMetricsBuilder initCtx (Optimize (replicatedBatch 65537))).1.cols.idCol :=
    congrArg (fun s => s.cols.idCol) (Append_state NewMetricsBuilder (replicatedBatch 65537) rfl)
  have key : (appendLoop NewMetricsBuilder initCtx (Optimize (replicatedBatch 65537))).1.cols.idCol =
      NewMetricsBuilder.cols.idCol ++
        (List.range (Optimize (replicatedBatch 65537)).length).map
          (fun i => (initCtx.metricID + i) % 65536) :=
    appendLoop_idCol (Optimize (replicatedBatch 65537)) NewMetricsBuilder initCtx h0
  have hlenopt : (Optimize (replicatedBatch 65537)).length = 65537 := by
    rw [Optimize_replicatedBatch 65537 (by norm_num)]
    exact List.length_replicate ..
  rw [hlenopt] at key
  have hid : (NewMetricsBuilder.Append (replicatedBatch 65537)).1.cols.idCol =
      (List.range 65537).map (fun i => (initCtx.metricID + i) % 65536) :=
    elink.trans (key.trans (List.nil_append _))
  have hlen := congrArg List.length hid
  simp only [List.length_map, List.length_range] at hlen
  have hval : ∀ i, i < 65537 →
      (NewMetricsBuilder.Append (replicatedBatch 65537)).1.cols.idCol.getD i 0 =
        (initCtx.metricID + i) % 65536 := by
    intro i hi
    conv_lhs => rw [hid]
    rw [List.getD_eq_getElem _ _ (by simpa using hi), List.getElem_map, List.getElem_range]
  refine ⟨?_, ?_, fun heq => ?_⟩
  · rw [hval 65535 (by norm_num)]
    norm_num [initCtx]
  · rw [hval 65536 (by norm_num)]
    norm_num [initCtx]
  · have h1 := hval 65536 (by norm_num)
    rw [heq, hlen] at h1
    rw [List.getD_eq_getElem _ _ (by simp), List.getElem_range] at h1
    norm_num [initCtx] at h1

/-! ## Claim C4: helper lemmas for the round-trip proof -/

lemma getD_append_self {α : Type} (l l2 : List α) (d x : α) (n : Nat) (h : l.length = n) :
    (l ++ x :: l2).getD n d = x := by
  subst h
  rw [@List.getD_append_right _ l (x :: l2) d l.length (le_refl _)]
  simp

lemma lookup_singleton_ne (k k2 : Int) (v : Attrs) (h : k ≠ k2) :
    List.lookup k [(k2, v)] = none := by
  simp [List.lookup, beq_eq_false_iff_ne.mpr h]

lemma lookup_append_ne (k k2 : Int) (rows : List (Int × Attrs)) (v : Attrs) (h : k ≠ k2) :
    List.lookup k (rows ++ [(k2, v)]) = List.lookup k rows := by
  rw [List.lookup_append, lookup_singleton_ne k k2 v h]
  cases List.lookup k rows <;> rfl

lemma lookup_none_of_keys_lt (k : Int) (rows : List (Int × Attrs))
    (h : ∀ p ∈ rows, p.1 < k) : List.lookup k rows = none := by
  induction rows with
  | nil => rfl
  | cons p t ih =>
    have hp : p.1 < k := h p (List.mem_cons_self ..)
    rw [show p = (p.1, p.2) from rfl, List.lookup_cons]
    rw [beq_eq_false_iff_ne.mpr (Ne.symm (ne_of_lt hp))]
    exact ih (fun q hq => h q (List.mem_cons_of_mem _ hq))

lemma lookup_append_new (k : Int) (rows : List (Int × Attrs)) (v : Attrs)
    (h : ∀ p ∈ rows, p.1 < k) : List.lookup k (rows ++ [(k, v)]) = some v := by
  rw [List.lookup_append, lookup_none_of_keys_lt k rows h]
  simp [List.lookup]

lemma filter_beq_nil_of_keys_lt {β : Type} (k : Nat) (t : List (Nat × β))
    (h : ∀ p ∈ t, p.1 < k) : t.filter (fun p => p.1 == k) = [] := by
  induction t with
  | nil => rfl
  | cons p t ih =>
    have hp : p.1 < k := h p (List.mem_cons_self ..)
    rw [List.filter_cons]
    rw [if_neg (by simp [beq_eq_false_iff_ne.mpr (ne_of_lt hp)])]
    exact ih (fun q hq => h q (List.mem_cons_of_mem _ hq))

lemma filter_map_pair_ne {β : Type} (ID i : Nat) (dps : List β) (h : ID ≠ i) :
    (dps.map (fun p => (ID, p))).filter (fun q => q.1 == i) = [] := by
  induction dps with
  | nil => rfl
  | cons d t ih =>
    simp only [List.map_cons, List.filter_cons]
    rw [if_neg (by simp [beq_eq_false_iff_ne.mpr h])]
    exact ih

lemma filter_map_pair_self {β : Type} (ID : Nat) (dps : List β) :
    ((dps.map (fun p => (ID, p))).filter (fun q => q.1 == ID)).map (fun p => p.2) = dps := by
  induction dps with
  | nil => rfl
  | cons d t ih =>
    simp only [List.map_cons, List.filter_cons]
    rw [if_pos (by simp)]
    simp only [List.map_cons, ih]

lemma appendNonEmpty_getD (s : String) : (appendNonEmpty s).getD "" = s := by
  unfold appendNonEmpty
  split <;> simp_all

/-! ## Claim C4: optimizer membership and well-formedness -/

/-- The optimizer invariant on flattened rows: the grouping identifiers
are exactly the grouped content. -/
def FlatWF (m : FlatMetric) : Prop :=
  m.resourceGroupID = m.resource ∧ m.scopeGroupID = (m.resource, m.scope)

lemma flattenMetrics_wf (B : Metrics) : ∀ a ∈ flattenMetrics B, FlatWF a := by
  intro a ha
  simp only [flattenMetrics, List.mem_flatMap, List.mem_map] at ha
  obtain ⟨rm, _, sm, _, mt, _, hmk⟩ := ha
  subst hmk
  exact ⟨rfl, rfl⟩

lemma flattenMetrics_kinds (B : Metrics)
    (hk : ∀ rm ∈ B, ∀ sm ∈ rm.scopeMetrics, ∀ mt ∈ sm.metrics, mt.data.isUnknown = false) :
    ∀ a ∈ flattenMetrics B, a.metric.data.isUnknown = false := by
  intro a ha
  simp only [flattenMetrics, List.mem_flatMap, List.mem_map] at ha
  obtain ⟨rm, hrm, sm, hsm, mt, hmt, hmk⟩ := ha
  subst hmk
  exact hk rm hrm sm hsm mt hmt

lemma mem_insertByName (a x : FlatMetric) (l : List FlatMetric)
    (h : a ∈ insertByName x l) : a = x ∨ a ∈ l := by
  induction l with
  | nil => simpa [insertByName] using h
  | cons y ys ih =>
    rw [insertByName] at h
    by_cases hc : nameLt x.metric.name y.metric.name = true
    · rw [if_pos hc] at h
      exact List.mem_cons.mp h
    · rw [if_neg hc] at h
      rcases List.mem_cons.mp h with h | h
      · exact Or.inr (h ▸ List.mem_cons_self ..)
      · rcases ih h with h | h
        · exact Or.inl h
        · exact Or.inr (List.mem_cons_of_mem _ h)

lemma mem_sortByName (a : FlatMetric) (l : List FlatMetric)
    (h : a ∈ sortByName l) : a ∈ l := by
  induction l with
  | nil => simp [sortByName] at h
  | cons x xs ih =>
    rw [sortByName] at h
    rcases mem_insertByName a x (sortByName xs) h with h | h
    · exact h ▸ List.mem_cons_self ..
    · exact List.mem_cons_of_mem _ (ih h)

lemma mem_groupRowsAux (fuel : Nat) (l : List FlatMetric) (g : List FlatMetric)
    (hg : g ∈ groupRowsAux fuel l) : ∀ a ∈ g, a ∈ l := by
  induction fuel generalizing l with
  | zero => simp [groupRowsAux] at hg
  | succ fuel ih =>
    cases l with
    | nil => simp [groupRowsAux] at hg
    | cons x xs =>
      rw [groupRowsAux] at hg
      rcases List.mem_cons.mp hg with hg | hg
      · subst hg
        intro a ha
        rcases List.mem_cons.mp ha with ha | ha
        · exact ha ▸ List.mem_cons_self ..
        · exact List.mem_cons_of_mem _ (List.mem_of_mem_filter ha)
      · intro a ha
        have := ih _ hg a ha
        exact List.mem_cons_of_mem _ (List.mem_of_mem_filter this)

lemma mem_Optimize (a : FlatMetric) (B : Metrics) (h : a ∈ Optimize B) :
    a ∈ flattenMetrics B := by
  rw [Optimize] at h
  rcases List.mem_flatten.mp h with ⟨g, hg, hag⟩
  rcases List.mem_map.mp hg with ⟨g0, hg0, hsort⟩
  subst hsort
  exact mem_groupRowsAux _ _ _ hg0 a (mem_sortByName a g0 hag)

/-! ## Claim C4: the encode invariant -/

/-- The inductive invariant of the Append loop relating the builder
state and loop context to the semantic rows already emitted: the id
column is exactly the row indices, all columns are aligned, decoding
recovers the emitted rows, accumulator ids are fresh and the cached
resource/scope ids resolve to the cached group's attributes, and all
data-point foreign keys reference emitted rows. -/
structure EncodeInv (sem : List SemMetricRow) (b : MetricsBuilder) (ctx : AppendCtx) : Prop where
  idLen : b.cols.idCol = List.range sem.length
  lenRes : b.cols.resCol.length = sem.length
  lenScope : b.cols.scopeCol.length = sem.length
  lenSchemaUrl : b.cols.schemaUrlCol.length = sem.length
  lenMT : b.cols.metricTypeCol.length = sem.length
  lenName : b.cols.nameCol.length = sem.length
  lenDesc : b.cols.descriptionCol.length = sem.length
  lenUnit : b.cols.unitCol.length = sem.length
  lenAgg : b.cols.aggregationTemporalityCol.length = sem.length
  lenMono : b.cols.isMonotonicCol.length = sem.length
  decodeEq : decodeRecord b.cols b.relatedData = sem
  ctxID : ctx.metricID = sem.length % 65536
  resFresh : ∀ p ∈ b.relatedData.resAttrs.rows, p.1 < b.relatedData.resAttrs.nextID
  scopeFresh : ∀ p ∈ b.relatedData.scopeAttrs.rows, p.1 < b.relatedData.scopeAttrs.nextID
  resColLt : ∀ p ∈ b.cols.resCol, p.1 < b.relatedData.resAttrs.nextID
  scopeColLt : ∀ p ∈ b.cols.scopeCol, p.1 < b.relatedData.scopeAttrs.nextID
  resCtx : ∀ r, ctx.resMetricsID = some r →
    List.lookup ctx.resID b.relatedData.resAttrs.rows = some r.attributes ∧
      ctx.resID < b.relatedData.resAttrs.nextID
  scopeCtx : ∀ rs, ctx.scopeMetricsID = some rs →
    List.lookup ctx.scopeID b.relatedData.scopeAttrs.rows = some rs.2.attributes ∧
      ctx.scopeID < b.relatedData.scopeAttrs.nextID
  dpNum : ∀ p ∈ b.relatedData.numberDPs, p.1 < sem.length
  dpSum : ∀ p ∈ b.relatedData.summaryDPs, p.1 < sem.length
  dpHist : ∀ p ∈ b.relatedData.histogramDPs, p.1 < sem.length
  dpEHist : ∀ p ∈ b.relatedData.ehistogramDPs, p.1 < sem.length

lemma encodeInv_base : EncodeInv [] NewMetricsBuilder initCtx := by
  refine ⟨rfl, rfl, rfl, rfl, rfl, rfl, rfl, rfl, rfl, rfl, rfl, rfl, ?_, ?_, ?_, ?_, ?_, ?_,
    ?_, ?_, ?_, ?_⟩ <;> simp [NewMetricsBuilder, emptyRelatedData, emptyColumns, initCtx]

/-- The aggregation-temporality entries the per-kind branch appends,
including the empty tail of the unknown default branch. -/
def aggTail (d : MetricData) : List (Option Int) :=
  if d.isUnknown then [] else [aggOf d]

/-- The is-monotonic entries the per-kind branch appends. -/
def monoTail (d : MetricData) : List (Option Bool) :=
  if d.isUnknown then [] else [monoOf d]

lemma appendKind_agg_ext (cols : Columns) (rd : RelatedData) (ID : Nat) (d : MetricData) :
    (appendKind cols rd ID d).1.aggregationTemporalityCol =
      cols.aggregationTemporalityCol ++ aggTail d := by
  cases d <;> simp [appendKind, aggTail, aggOf, MetricData.isUnknown]

lemma appendKind_mono_ext (cols : Columns) (rd : RelatedData) (ID : Nat) (d : MetricData) :
    (appendKind cols rd ID d).1.isMonotonicCol = cols.isMonotonicCol ++ monoTail d := by
  cases d <;> simp [appendKind, monoTail, monoOf, MetricData.isUnknown]

lemma appendRow_agg_ext (b : MetricsBuilder) (ctx : AppendCtx) (m : FlatMetric) :
    (appendRow b ctx m).1.cols.aggregationTemporalityCol =
      b.cols.aggregationTemporalityCol ++ aggTail m.metric.data := by
  simp [appendRow, appendKind_agg_ext]

lemma appendRow_mono_ext (b : MetricsBuilder) (ctx : AppendCtx) (m : FlatMetric) :
    (appendRow b ctx m).1.cols.isMonotonicCol =
      b.cols.isMonotonicCol ++ monoTail m.metric.data := by
  simp [appendRow, appendKind_mono_ext]

/-- Appending one more row does not change how any earlier row decodes. -/
lemma decodeRow_stable (sem : List SemMetricRow) (b : MetricsBuilder) (ctx : AppendCtx)
    (m : FlatMetric) (inv : EncodeInv sem b ctx) (hn : sem.length < 65536)
    (i : Nat) (hi : i < sem.length) :
    decodeRow (appendRow b ctx m).1.cols (appendRow b ctx m).1.relatedData i =
      decodeRow b.cols b.relatedData i := by
  have hidlen : b.cols.idCol.length = sem.length := by rw [inv.idLen, List.length_range]
  have gid : (appendRow b ctx m).1.cols.idCol.getD i 0 = b.cols.idCol.getD i 0 := by
    rw [appendRow_idCol]
    exact @List.getD_append _ _ _ _ i (by rw [hidlen]; exact hi)
  have gidv : b.cols.idCol.getD i 0 = i := by
    rw [inv.idLen, List.getD_eq_getElem _ _ (by rw [List.length_range]; exact hi),
      List.getElem_range]
  have gres : (appendRow b ctx m).1.cols.resCol.getD i (0, none) =
      b.cols.resCol.getD i (0, none) := by
    rw [appendRow_resCol]
    exact @List.getD_append _ _ _ _ i (by rw [inv.lenRes]; exact hi)
  have gscope : (appendRow b ctx m).1.cols.scopeCol.getD i (0, none, none) =
      b.cols.scopeCol.getD i (0, none, none) := by
    rw [appendRow_scopeCol]
    exact @List.getD_append _ _ _ _ i (by rw [inv.lenScope]; exact hi)
  have gsurl : (appendRow b ctx m).1.cols.schemaUrlCol.getD i none =
      b.cols.schemaUrlCol.getD i none := by
    rw [appendRow_schemaUrlCol]
    exact @List.getD_append _ _ _ _ i (by rw [inv.lenSchemaUrl]; exact hi)
  have gmt : (appendRow b ctx m).1.cols.metricTypeCol.getD i 0 =
      b.cols.metricTypeCol.getD i 0 := by
    rw [appendRow_metricTypeCol]
    exact @List.getD_append _ _ _ _ i (by rw [inv.lenMT]; exact hi)
  have gname : (appendRow b ctx m).1.cols.nameCol.getD i none = b.cols.nameCol.getD i none := by
    rw [appendRow_nameCol]
    exact @List.getD_append _ _ _ _ i (by rw [inv.lenName]; exact hi)
  have gdesc : (appendRow b ctx m).1.cols.descriptionCol.getD i none =
      b.cols.descriptionCol.getD i none := by
    rw [appendRow_descriptionCol]
    exact @List.getD_append _ _ _ _ i (by rw [inv.lenDesc]; exact hi)
  have gunit : (appendRow b ctx m).1.cols.unitCol.getD i none = b.cols.unitCol.getD i none := by
    rw [appendRow_unitCol]
    exact @List.getD_append _ _ _ _ i (by rw [inv.lenUnit]; exact hi)
  have gagg : (appendRow b ctx m).1.cols.aggregationTemporalityCol.getD i none =
      b.cols.aggregationTemporalityCol.getD i none := by
    rw [appendRow_agg_ext]
    exact @List.getD_append _ _ _ _ i (by rw [inv.lenAgg]; exact hi)
  have gmono : (appendRow b ctx m).1.cols.isMonotonicCol.getD i none =
      b.cols.isMonotonicCol.getD i none := by
    rw [appendRow_mono_ext]
    exact @List.getD_append _ _ _ _ i (by rw [inv.lenMono]; exact hi)
  have hresmem : b.cols.resCol.getD i (0, none) ∈ b.cols.resCol := by
    rw [List.getD_eq_getElem _ _ (by rw [inv.lenRes]; exact hi)]
    exact List.getElem_mem _
  have hscopemem : b.cols.scopeCol.getD i (0, none, none) ∈ b.cols.scopeCol := by
    rw [List.getD_eq_getElem _ _ (by rw [inv.lenScope]; exact hi)]
    exact List.getElem_mem _
  have hresl : List.lookup (b.cols.resCol.getD i (0, none)).1
      (appendRow b ctx m).1.relatedData.resAttrs.rows =
      List.lookup (b.cols.resCol.getD i (0, none)).1 b.relatedData.resAttrs.rows := by
    rw [appendRow_resAttrs]
    by_cases hmr : ctx.resMetricsID = some m.resourceGroupID
    · rw [mintRes_neg _ _ _ hmr]
    · rw [mintRes_pos _ _ _ hmr]
      exact lookup_append_ne _ _ _ _ (ne_of_lt (inv.resColLt _ hresmem))
  have hscopel : List.lookup (b.cols.scopeCol.getD i (0, none, none)).1
      (appendRow b ctx m).1.relatedData.scopeAttrs.rows =
      List.lookup (b.cols.scopeCol.getD i (0, none, none)).1 b.relatedData.scopeAttrs.rows := by
    rw [appendRow_scopeAttrs]
    by_cases hms : ctx.scopeMetricsID = some m.scopeGroupID
    · rw [mintScope_neg _ _ _ hms]
    · rw [mintScope_pos _ _ _ hms]
      exact lookup_append_ne _ _ _ _ (ne_of_lt (inv.scopeColLt _ hscopemem))
  have hne : ctx.metricID ≠ i := by
    rw [inv.ctxID, Nat.mod_eq_of_lt hn]
    omega
  have hnum : (appendRow b ctx m).1.relatedData.numberDPs.filter (fun p => p.1 == i) =
      b.relatedData.numberDPs.filter (fun p => p.1 == i) := by
    rw [appendRow_numberDPs, List.filter_append, filter_map_pair_ne _ _ _ hne, List.append_nil]
  have hsumm : (appendRow b ctx m).1.relatedData.summaryDPs.filter (fun p => p.1 == i) =
      b.relatedData.summaryDPs.filter (fun p => p.1 == i) := by
    rw [appendRow_summaryDPs, List.filter_append, filter_map_pair_ne _ _ _ hne, List.append_nil]
  have hhist : (appendRow b ctx m).1.relatedData.histogramDPs.filter (fun p => p.1 == i) =
      b.relatedData.histogramDPs.filter (fun p => p.1 == i) := by
    rw [appendRow_histogramDPs, List.filter_append, filter_map_pair_ne _ _ _ hne, List.append_nil]
  have hehist : (appendRow b ctx m).1.relatedData.ehistogramDPs.filter (fun p => p.1 == i) =
      b.relatedData.ehistogramDPs.filter (fun p => p.1 == i) := by
    rw [appendRow_ehistogramDPs, List.filter_append, filter_map_pair_ne _ _ _ hne,
      List.append_nil]
  simp only [decodeRow, lookupAttrs, gid, gidv, gres, gscope, gsurl, gmt, gname, gdesc,
    gunit, gagg, gmono, hresl, hscopel, hnum, hsumm, hhist, hehist]

/-- The freshly appended row decodes to the semantic content of the
flattened input row. -/
lemma decodeRow_new (sem : List SemMetricRow) (b : MetricsBuilder) (ctx : AppendCtx)
    (m : FlatMetric) (inv : EncodeInv sem b ctx) (hn : sem.length < 65536)
    (hwfR : m.resourceGroupID = m.resource) (hwfS : m.scopeGroupID = (m.resource, m.scope))
    (hk : m.metric.data.isUnknown = false) :
    decodeRow (appendRow b ctx m).1.cols (appendRow b ctx m).1.relatedData sem.length =
      semOfFlat m := by
  have hkey : ctx.metricID = sem.length := by
    rw [inv.ctxID]
    exact Nat.mod_eq_of_lt hn
  have hidlen : b.cols.idCol.length = sem.length := by rw [inv.idLen, List.length_range]
  have gidv : (appendRow b ctx m).1.cols.idCol.getD sem.length 0 = ctx.metricID := by
    rw [appendRow_idCol]
    exact getD_append_self _ _ _ _ _ hidlen
  have gres : (appendRow b ctx m).1.cols.resCol.getD sem.length (0, none) =
      ((mintRes ctx b.relatedData.resAttrs m).1, appendNonEmpty m.resourceSchemaUrl) := by
    rw [appendRow_resCol]
    exact getD_append_self _ _ _ _ _ inv.lenRes
  have gscope : (appendRow b ctx m).1.cols.scopeCol.getD sem.length (0, none, none) =
      ((mintScope ctx b.relatedData.scopeAttrs m).1,
        appendNonEmpty m.scope.name, appendNonEmpty m.scope.version) := by
    rw [appendRow_scopeCol]
    exact getD_append_self _ _ _ _ _ inv.lenScope
  have gsurl : (appendRow b ctx m).1.cols.schemaUrlCol.getD sem.length none =
      appendNonEmpty m.scopeSchemaUrl := by
    rw [appendRow_schemaUrlCol]
    exact getD_append_self _ _ _ _ _ inv.lenSchemaUrl
  have gmt : (appendRow b ctx m).1.cols.metricTypeCol.getD sem.length 0 =
      m.metric.data.typeDiscriminant % 256 := by
    rw [appendRow_metricTypeCol]
    exact getD_append_self _ _ _ _ _ inv.lenMT
  have gname : (appendRow b ctx m).1.cols.nameCol.getD sem.length none =
      appendNonEmpty m.metric.name := by
    rw [appendRow_nameCol]
    exact getD_append_self _ _ _ _ _ inv.lenName
  have gdesc : (appendRow b ctx m).1.cols.descriptionCol.getD sem.length none =
      appendNonEmpty m.metric.description := by
    rw [appendRow_descriptionCol]
    exact getD_append_self _ _ _ _ _ inv.lenDesc
  have gunit : (appendRow b ctx m).1.cols.unitCol.getD sem.length none =
      appendNonEmpty m.metric.unit := by
    rw [appendRow_unitCol]
    exact getD_append_self _ _ _ _ _ inv.lenUnit
  have gagg : (appendRow b ctx m).1.cols.aggregationTemporalityCol.getD sem.length none =
      aggOf m.metric.data := by
    rw [appendRow_agg b ctx m hk]
    exact getD_append_self _ _ _ _ _ inv.lenAgg
  have gmono : (appendRow b ctx m).1.cols.isMonotonicCol.getD sem.length none =
      monoOf m.metric.data := by
    rw [appendRow_mono b ctx m hk]
    exact getD_append_self _ _ _ _ _ inv.lenMono
  have hresl : List.lookup (mintRes ctx b.relatedData.resAttrs m).1
      (appendRow b ctx m).1.relatedData.resAttrs.rows = some m.resource.attributes := by
    rw [appendRow_resAttrs]
    by_cases hmr : ctx.resMetricsID = some m.resourceGroupID
    · rw [mintRes_neg _ _ _ hmr]
      show List.lookup ctx.resID b.relatedData.resAttrs.rows = some m.resource.attributes
      have hrc := (inv.resCtx m.resourceGroupID hmr).1
      rw [hwfR] at hrc
      exact hrc
    · rw [mintRes_pos _ _ _ hmr]
      show List.lookup b.relatedData.resAttrs.nextID
        (b.relatedData.resAttrs.rows ++
          [(b.relatedData.resAttrs.nextID, m.resource.attributes)]) = some m.resource.attributes
      exact lookup_append_new _ _ _ inv.resFresh
  have hscopel : List.lookup (mintScope ctx b.relatedData.scopeAttrs m).1
      (appendRow b ctx m).1.relatedData.scopeAttrs.rows = some m.scope.attributes := by
    rw [appendRow_scopeAttrs]
    by_cases hms : ctx.scopeMetricsID = some m.scopeGroupID
    · rw [mintScope_neg _ _ _ hms]
      show List.lookup ctx.scopeID b.relatedData.scopeAttrs.rows = some m.scope.attributes
      have hsc := (inv.scopeCtx m.scopeGroupID hms).1
      rw [hwfS] at hsc
      exact hsc
    · rw [mintScope_pos _ _ _ hms]
      show List.lookup b.relatedData.scopeAttrs.nextID
        (b.relatedData.scopeAttrs.rows ++
          [(b.relatedData.scopeAttrs.nextID, m.scope.attributes)]) = some m.scope.attributes
      exact lookup_append_new _ _ _ inv.scopeFresh
  have hnum : ((appendRow b ctx m).1.relatedData.numberDPs.filter
      (fun p => p.1 == ctx.metricID)).map (fun p => p.2) = numberDPsOf m.metric.data := by
    rw [appendRow_numberDPs, List.filter_append,
      filter_beq_nil_of_keys_lt _ _ (fun p hp => by rw [hkey]; exact inv.dpNum p hp),
      List.nil_append, filter_map_pair_self]
  have hsumm : ((appendRow b ctx m).1.relatedData.summaryDPs.filter
      (fun p => p.1 == ctx.metricID)).map (fun p => p.2) = summaryDPsOf m.metric.data := by
    rw [appendRow_summaryDPs, List.filter_append,
      filter_beq_nil_of_keys_lt _ _ (fun p hp => by rw [hkey]; exact inv.dpSum p hp),
      List.nil_append, filter_map_pair_self]
  have hhist : ((appendRow b ctx m).1.relatedData.histogramDPs.filter
      (fun p => p.1 == ctx.metricID)).map (fun p => p.2) = histDPsOf m.metric.data := by
    rw [appendRow_histogramDPs, List.filter_append,
      filter_beq_nil_of_keys_lt _ _ (fun p hp => by rw [hkey]; exact inv.dpHist p hp),
      List.nil_append, filter_map_pair_self]
  have hehist : ((appendRow b ctx m).1.relatedData.ehistogramDPs.filter
      (fun p => p.1 == ctx.metricID)).map (fun p => p.2) = ehistDPsOf m.metric.data := by
    rw [appendRow_ehistogramDPs, List.filter_append,
      filter_beq_nil_of_keys_lt _ _ (fun p hp => by rw [hkey]; exact inv.dpEHist p hp),
      List.nil_append, filter_map_pair_self]
  cases hd : m.metric.data with
  | gauge dps =>
    rw [hd] at gmt gagg gmono hnum
    simp only [decodeRow, lookupAttrs, gidv, gres, gscope, gsurl, gmt, gname, gdesc, gunit,
      gagg, gmono, hresl, hscopel, hnum, semOfFlat, hd, MetricData.typeDiscriminant,
      numberDPsOf, appendNonEmpty_getD, Option.getD_some]
    norm_num
  | sum t mono dps =>
    rw [hd] at gmt gagg gmono hnum
    simp only [decodeRow, lookupAttrs, gidv, gres, gscope, gsurl, gmt, gname, gdesc, gunit,
      gagg, gmono, hresl, hscopel, hnum, semOfFlat, hd, MetricData.typeDiscriminant,
      numberDPsOf, aggOf, monoOf, appendNonEmpty_getD, Option.getD_some]
    norm_num
  | histogram t dps =>
    rw [hd] at gmt gagg gmono hhist
    simp only [decodeRow, lookupAttrs, gidv, gres, gscope, gsurl, gmt, gname, gdesc, gunit,
      gagg, gmono, hresl, hscopel, hhist, semOfFlat, hd, MetricData.typeDiscriminant,
      histDPsOf, aggOf, monoOf, appendNonEmpty_getD, Option.getD_some]
    norm_num
  | exponentialHistogram t dps =>
    rw [hd] at gmt gagg gmono hehist
    simp only [decodeRow, lookupAttrs, gidv, gres, gscope, gsurl, gmt, gname, gdesc, gunit,
      gagg, gmono, hresl, hscopel, hehist, semOfFlat, hd, MetricData.typeDiscriminant,
      ehistDPsOf, aggOf, monoOf, appendNonEmpty_getD, Option.getD_some]
    norm_num
  | summary dps =>
    rw [hd] at gmt gagg gmono hsumm
    simp only [decodeRow, lookupAttrs, gidv, gres, gscope, gsurl, gmt, gname, gdesc, gunit,
      gagg, gmono, hresl, hscopel, hsumm, semOfFlat, hd, MetricData.typeDiscriminant,
      summaryDPsOf, appendNonEmpty_getD, Option.getD_some]
    norm_num
  | empty =>
    rw [hd] at gmt gagg gmono
    simp only [decodeRow, lookupAttrs, gidv, gres, gscope, gsurl, gmt, gname, gdesc, gunit,
      gagg, gmono, hresl, hscopel, semOfFlat, hd, MetricData.typeDiscriminant,
      appendNonEmpty_getD, Option.getD_some]
    norm_num
  | unknown d =>
    rw [hd] at hk
    simp [MetricData.isUnknown] at hk

/-- One loop iteration preserves the encode invariant, extending the
emitted rows by the new row's semantic content. -/
lemma encode_step (sem : List SemMetricRow) (b : MetricsBuilder) (ctx : AppendCtx)
    (m : FlatMetric) (inv : EncodeInv sem b ctx) (hn : sem.length < 65536)
    (hwf : FlatWF m) (hk : m.metric.data.isUnknown = false) :
    EncodeInv (sem ++ [semOfFlat m]) (appendRow b ctx m).1 (appendRow b ctx m).2 := by
  obtain ⟨hwfR, hwfS⟩ := hwf
  have hkey : ctx.metricID = sem.length := by
    rw [inv.ctxID]
    exact Nat.mod_eq_of_lt hn
  have hlen2 : (sem ++ [semOfFlat m]).length = sem.length + 1 := by simp
  have hidlenB : b.cols.idCol.length = sem.length := by rw [inv.idLen, List.length_range]
  have hidCol : (appendRow b ctx m).1.cols.idCol = List.range (sem.length + 1) := by
    rw [appendRow_idCol, inv.idLen, hkey, List.range_succ]
  have hnextLeRes : b.relatedData.resAttrs.nextID ≤
      (appendRow b ctx m).1.relatedData.resAttrs.nextID := by
    rw [appendRow_resAttrs]
    by_cases hmr : ctx.resMetricsID = some m.resourceGroupID
    · rw [mintRes_neg _ _ _ hmr]
    · rw [mintRes_pos _ _ _ hmr]
      exact le_of_lt (lt_add_one _)
  have hnextLeScope : b.relatedData.scopeAttrs.nextID ≤
      (appendRow b ctx m).1.relatedData.scopeAttrs.nextID := by
    rw [appendRow_scopeAttrs]
    by_cases hms : ctx.scopeMetricsID = some m.scopeGroupID
    · rw [mintScope_neg _ _ _ hms]
    · rw [mintScope_pos _ _ _ hms]
      exact le_of_lt (lt_add_one _)
  have hresFresh : ∀ p ∈ (appendRow b ctx m).1.relatedData.resAttrs.rows,
      p.1 < (appendRow b ctx m).1.relatedData.resAttrs.nextID := by
    rw [appendRow_resAttrs]
    by_cases hmr : ctx.resMetricsID = some m.resourceGroupID
    · rw [mintRes_neg _ _ _ hmr]
      exact inv.resFresh
    · rw [mintRes_pos _ _ _ hmr]
      intro p hp
      rcases List.mem_append.mp hp with h | h
      · exact lt_trans (inv.resFresh p h) (lt_add_one _)
      · rw [List.mem_singleton] at h
        subst h
        exact lt_add_one _
  have hscopeFresh : ∀ p ∈ (appendRow b ctx m).1.relatedData.scopeAttrs.rows,
      p.1 < (appendRow b ctx m).1.relatedData.scopeAttrs.nextID := by
    rw [appendRow_scopeAttrs]
    by_cases hms : ctx.scopeMetricsID = some m.scopeGroupID
    · rw [mintScope_neg _ _ _ hms]
      exact inv.scopeFresh
    · rw [mintScope_pos _ _ _ hms]
      intro p hp
      rcases List.mem_append.mp hp with h | h
      · exact lt_trans (inv.scopeFresh p h) (lt_add_one _)
      · rw [List.mem_singleton] at h
        subst h
        exact lt_add_one _
  have hresIDlt : (mintRes ctx b.relatedData.resAttrs m).1 <
      (appendRow b ctx m).1.relatedData.resAttrs.nextID := by
    rw [appendRow_resAttrs]
    by_cases hmr : ctx.resMetricsID = some m.resourceGroupID
    · rw [mintRes_neg _ _ _ hmr]
      exact (inv.resCtx m.resourceGroupID hmr).2
    · rw [mintRes_pos _ _ _ hmr]
      exact lt_add_one _
  have hscopeIDlt : (mintScope ctx b.relatedData.scopeAttrs m).1 <
      (appendRow b ctx m).1.relatedData.scopeAttrs.nextID := by
    rw [appendRow_scopeAttrs]
    by_cases hms : ctx.scopeMetricsID = some m.scopeGroupID
    · rw [mintScope_neg _ _ _ hms]
      exact (inv.scopeCtx m.scopeGroupID hms).2
    · rw [mintScope_pos _ _ _ hms]
      exact lt_add_one _
  have hresColLt : ∀ p ∈ (appendRow b ctx m).1.cols.resCol,
      p.1 < (appendRow b ctx m).1.relatedData.resAttrs.nextID := by
    rw [appendRow_resCol]
    intro p hp
    rcases List.mem_append.mp hp with h | h
    · exact lt_of_lt_of_le (inv.resColLt p h) hnextLeRes
    · rw [List.mem_singleton] at h
      subst h
      exact hresIDlt
  have hscopeColLt : ∀ p ∈ (appendRow b ctx m).1.cols.scopeCol,
      p.1 < (appendRow b ctx m).1.relatedData.scopeAttrs.nextID := by
    rw [appendRow_scopeCol]
    intro p hp
    rcases List.mem_append.mp hp with h | h
    · exact lt_of_lt_of_le (inv.scopeColLt p h) hnextLeScope
    · rw [List.mem_singleton] at h
      subst h
      exact hscopeIDlt
  have hreslook : List.lookup (mintRes ctx b.relatedData.resAttrs m).1
      (appendRow b ctx m).1.relatedData.resAttrs.rows = some m.resource.attributes := by
    rw [appendRow_resAttrs]
    by_cases hmr : ctx.resMetricsID = some m.resourceGroupID
    · rw [mintRes_neg _ _ _ hmr]
      show List.lookup ctx.resID b.relatedData.resAttrs.rows = some m.resource.attributes
      have hrc := (inv.resCtx m.resourceGroupID hmr).1
      rw [hwfR] at hrc
      exact hrc
    · rw [mintRes_pos _ _ _ hmr]
      exact lookup_append_new _ _ _ inv.resFresh
  have hscopelook : List.lookup (mintScope ctx b.relatedData.scopeAttrs m).1
      (appendRow b ctx m).1.relatedData.scopeAttrs.rows = some m.scope.attributes := by
    rw [appendRow_scopeAttrs]
    by_cases hms : ctx.scopeMetricsID = some m.scopeGroupID
    · rw [mintScope_neg _ _ _ hms]
      show List.lookup ctx.scopeID b.relatedData.scopeAttrs.rows = some m.scope.attributes
      have hsc := (inv.scopeCtx m.scopeGroupID hms).1
      rw [hwfS] at hsc
      exact hsc
    · rw [mintScope_pos _ _ _ hms]
      exact lookup_append_new _ _ _ inv.scopeFresh
  have hgid : (appendRow b ctx m).2.resMetricsID = some m.resourceGroupID := by
    rw [appendRow_ctx]
    by_cases hmr : ctx.resMetricsID = some m.resourceGroupID
    · rw [mintRes_neg _ _ _ hmr]
      exact hmr
    · rw [mintRes_pos _ _ _ hmr]
  have hgids : (appendRow b ctx m).2.scopeMetricsID = some m.scopeGroupID := by
    rw [appendRow_ctx]
    by_cases hms : ctx.scopeMetricsID = some m.scopeGroupID
    · rw [mintScope_neg _ _ _ hms]
      exact hms
    · rw [mintScope_pos _ _ _ hms]
  have hdecB : (List.range sem.length).map (decodeRow b.cols b.relatedData) = sem := by
    have hd := inv.decodeEq
    rw [decodeRecord, hidlenB] at hd
    exact hd
  have hdec : decodeRecord (appendRow b ctx m).1.cols (appendRow b ctx m).1.relatedData =
      sem ++ [semOfFlat m] := by
    rw [decodeRecord, hidCol, List.length_range, List.range_succ, List.map_append]
    congr 1
    · refine (List.map_congr_left fun i hi => ?_).trans hdecB
      exact decodeRow_stable sem b ctx m inv hn i (List.mem_range.mp hi)
    · rw [List.map_singleton, decodeRow_new sem b ctx m inv hn hwfR hwfS hk]
  refine ⟨by rw [hlen2]; exact hidCol, ?_, ?_, ?_, ?_, ?_, ?_, ?_, ?_, ?_, hdec, ?_,
    hresFresh, hscopeFresh, hresColLt, hscopeColLt, ?_, ?_, ?_, ?_, ?_, ?_⟩
  · rw [appendRow_resCol, List.length_append, inv.lenRes, hlen2]
    rfl
  · rw [appendRow_scopeCol, List.length_append, inv.lenScope, hlen2]
    rfl
  · rw [appendRow_schemaUrlCol, List.length_append, inv.lenSchemaUrl, hlen2]
    rfl
  · rw [appendRow_metricTypeCol, List.length_append, inv.lenMT, hlen2]
    rfl
  · rw [appendRow_nameCol, List.length_append, inv.lenName, hlen2]
    rfl
  · rw [appendRow_descriptionCol, List.length_append, inv.lenDesc, hlen2]
    rfl
  · rw [appendRow_unitCol, List.length_append, inv.lenUnit, hlen2]
    rfl
  · rw [appendRow_agg b ctx m hk, List.length_append, inv.lenAgg, hlen2]
    rfl
  · rw [appendRow_mono b ctx m hk, List.length_append, inv.lenMono, hlen2]
    rfl
  · rw [appendRow_ctx, hkey, hlen2]
  · intro r hr
    rw [hgid] at hr
    have hreq : r = m.resourceGroupID := Option.some_injective _ hr.symm
    subst hreq
    refine ⟨?_, ?_⟩
    · show List.lookup (appendRow b ctx m).2.resID
        (appendRow b ctx m).1.relatedData.resAttrs.rows = some m.resourceGroupID.attributes
      rw [appendRow_ctx]
      rw [hwfR]
      exact hreslook
    · rw [appendRow_ctx]
      exact hresIDlt
  · intro rs hrs
    rw [hgids] at hrs
    have hreq : rs = m.scopeGroupID := Option.some_injective _ hrs.symm
    subst hreq
    refine ⟨?_, ?_⟩
    · show List.lookup (appendRow b ctx m).2.scopeID
        (appendRow b ctx m).1.relatedData.scopeAttrs.rows = some m.scopeGroupID.2.attributes
      rw [appendRow_ctx]
      rw [hwfS]
      exact hscopelook
    · rw [appendRow_ctx]
      exact hscopeIDlt
  · rw [appendRow_numberDPs, hlen2]
    intro p hp
    rcases List.mem_append.mp hp with h | h
    · exact lt_trans (inv.dpNum p h) (lt_add_one _)
    · rcases List.mem_map.mp h with ⟨q, _, hq⟩
      rw [← hq]
      show ctx.metricID < sem.length + 1
      rw [hkey]
      exact lt_add_one _
  · rw [appendRow_summaryDPs, hlen2]
    intro p hp
    rcases List.mem_append.mp hp with h | h
    · exact lt_trans (inv.dpSum p h) (lt_add_one _)
    · rcases List.mem_map.mp h with ⟨q, _, hq⟩
      rw [← hq]
      show ctx.metricID < sem.length + 1
      rw [hkey]
      exact lt_add_one _
  · rw [appendRow_histogramDPs, hlen2]
    intro p hp
    rcases List.mem_append.mp hp with h | h
    · exact lt_trans (inv.dpHist p h) (lt_add_one _)
    · rcases List.mem_map.mp h with ⟨q, _, hq⟩
      rw [← hq]
      show ctx.metricID < sem.length + 1
      rw [hkey]
      exact lt_add_one _
  · rw [appendRow_ehistogramDPs, hlen2]
    intro p hp
    rcases List.mem_append.mp hp with h | h
    · exact lt_trans (inv.dpEHist p h) (lt_add_one _)
    · rcases List.mem_map.mp h with ⟨q, _, hq⟩
      rw [← hq]
      show ctx.metricID < sem.length + 1
      rw [hkey]
      exact lt_add_one _

/-- The Append loop preserves the encode invariant over a whole row
list of well-formed, handled-kind rows. -/
lemma encode_loop (rows : List FlatMetric) (sem : List SemMetricRow) (b : MetricsBuilder)
    (ctx : AppendCtx) (inv : EncodeInv sem b ctx)
    (hlen : sem.length + rows.length ≤ 65536)
    (hwf : ∀ m ∈ rows, FlatWF m)
    (hk : ∀ m ∈ rows, m.metric.data.isUnknown = false) :
    EncodeInv (sem ++ rows.map semOfFlat) (appendLoop b ctx rows).1 (appendLoop b ctx rows).2 := by
  induction rows generalizing sem b ctx with
  | nil => simpa using inv
  | cons m ms ih =>
    simp only [appendLoop]
    have hn : sem.length < 65536 := by
      simp only [List.length_cons] at hlen
      omega
    have hstep := encode_step sem b ctx m inv hn (hwf m (List.mem_cons_self ..))
      (hk m (List.mem_cons_self ..))
    have hlen1 : (sem ++ [semOfFlat m]).length + ms.length ≤ 65536 := by
      simp only [List.length_append, List.length_cons, List.length_nil] at hlen ⊢
      omega
    have hrec := ih (sem ++ [semOfFlat m]) (appendRow b ctx m).1 (appendRow b ctx m).2 hstep
      hlen1
      (fun x hx => hwf x (List.mem_cons_of_mem _ hx))
      (fun x hx => hk x (List.mem_cons_of_mem _ hx))
    simpa [List.append_assoc] using hrec

/-- Claim C4 as amended: for every batch whose metrics are all of
handled kinds and whose optimized row count fits in the uint16 id space,
a fresh builder's Append succeeds, Build hands out the encoded column
batch, and decoding it together with the correlated child tables
reconstructs exactly the semantic content of the optimizer's reordering
of the input — the encoding is lossless and reversible up to the
optimizer's reordering. -/
theorem c4_roundtrip_amended (B : Metrics)
    (hk : ∀ rm ∈ B, ∀ sm ∈ rm.scopeMetrics, ∀ mt ∈ sm.metrics, mt.data.isUnknown = false)
    (hlen : (Optimize B).length ≤ 65536) :
    (NewMetricsBuilder.Append B).2 = none ∧
    (NewMetricsBuilder.Append B).1.Build.1 = some (NewMetricsBuilder.Append B).1.cols ∧
    decodeRecord (NewMetricsBuilder.Append B).1.cols
      (NewMetricsBuilder.Append B).1.relatedData = (Optimize B).map semOfFlat := by
  have hinv := encode_loop (Optimize B) [] NewMetricsBuilder initCtx encodeInv_base
    (by simpa using hlen)
    (fun m hm => flattenMetrics_wf B m (mem_Optimize m B hm))
    (fun m hm => flattenMetrics_kinds B hk m (mem_Optimize m B hm))
  have hstate : (NewMetricsBuilder.Append B).1 =
      (appendLoop NewMetricsBuilder initCtx (Optimize B)).1 := Append_state _ _ rfl
  refine ⟨?_, ?_, ?_⟩
  · rw [Append_not_released _ _ rfl]
  · have hrel : (NewMetricsBuilder.Append B).1.released = false := by
      rw [hstate, appendLoop_released]
      rfl
    have hsod : (NewMetricsBuilder.Append B).1.schemaOutOfDate = false := by
      rw [hstate, appendLoop_schemaOutOfDate]
      rfl
    rw [MetricsBuilder.Build, if_neg (by simp [hrel]), if_neg (by simp [hsod])]
  · rw [hstate]
    have hd := hinv.decodeEq
    simpa using hd

/-- A concrete two-metric batch (gauge and cumulative monotonic sum)
under one resource and one scope, used to witness claim C4. -/
def roundTripBatch : Metrics :=
  [ { resource := { attributes := [("env", .str "prod")] }
      schemaUrl := "rurl"
      scopeMetrics :=
        [ { scope := { name := "lib", version := "1.0", attributes := [("k", .intV 3)] }
            schemaUrl := ""
            metrics :=
              [ { name := "g", description := "", unit := "ms",
                  data := .gauge [ { timeUnixNano := 1, value := 42 } ] },
                { name := "s", description := "d", unit := "",
                  data := .sum 2 true [ { timeUnixNano := 2, value := 7 } ] } ] } ] } ]

/-- Witness for claim C4 as amended, at a concrete batch. -/
theorem c4_roundtrip_amended_witness :
    ((∀ rm ∈ roundTripBatch, ∀ sm ∈ rm.scopeMetrics, ∀ mt ∈ sm.metrics,
        mt.data.isUnknown = false) ∧
      (Optimize roundTripBatch).length ≤ 65536) ∧
    ((NewMetricsBuilder.Append roundTripBatch).2 = none ∧
     (NewMetricsBuilder.Append roundTripBatch).1.Build.1 =
       some (NewMetricsBuilder.Append roundTripBatch).1.cols ∧
     decodeRecord (NewMetricsBuilder.Append roundTripBatch).1.cols
       (NewMetricsBuilder.Append roundTripBatch).1.relatedData =
         (Optimize roundTripBatch).map semOfFlat) :=
  ⟨⟨by decide, by decide⟩, c4_roundtrip_amended roundTripBatch (by decide) (by decide)⟩

/-- Counterexample for claim C4 as stated: a batch holding one metric of
an unknown kind with discriminant 300 does not round-trip — the
metric-type column keeps only 300 mod 256 = 44, so the decoded batch
differs from the optimizer's reordering of the input. -/
theorem c4_roundtrip_counterexample :
    decodeRecord (NewMetricsBuilder.Append bigDiscriminantBatch).1.cols
        (NewMetricsBuilder.Append bigDiscriminantBatch).1.relatedData ≠
      (Optimize bigDiscriminantBatch).map semOfFlat := by
  decide
